/-
Verification of the weighted round-robin dispatcher, address resolution and
SOCKS handshake engine of the `dispatch` SOCKS proxy, as a shallow embedding
of the Rust sources (src/dispatcher/weighted_rr.rs, src/net.rs, src/socks.rs).

Machine integers (`usize`, `u8`, `u16`) are modelled as `Nat`; the values
involved (weights, cursors, byte values) never overflow in the scenarios the
claims quantify over.  Fallible Rust functions returning `Result` are
modelled with `Option`/`Except`.  OS calls (interface enumeration, socket
binding, reads/writes, DNS, connect) are modelled as explicit parameters or
environment fields holding their outcomes, so every definition is executable.
-/
import Mathlib

namespace Dispatch

/-! ## IP addresses (std::net::IpAddr, Ipv4Addr, Ipv6Addr)

`Ipv4` holds the four octets, `Ipv6` the eight 16-bit segments. -/

structure Ipv4 where
  a : Nat
  b : Nat
  c : Nat
  d : Nat
deriving DecidableEq, Repr

structure Ipv6 where
  s0 : Nat
  s1 : Nat
  s2 : Nat
  s3 : Nat
  s4 : Nat
  s5 : Nat
  s6 : Nat
  s7 : Nat
deriving DecidableEq, Repr

inductive IpAddr where
  | v4 (ip : Ipv4)
  | v6 (ip : Ipv6)
deriving DecidableEq, Repr

/-- The two address families. -/
inductive Family where
  | v4
  | v6
deriving DecidableEq, Repr

def IpAddr.family : IpAddr → Family
  | .v4 _ => .v4
  | .v6 _ => .v6

/-- `Ipv4Addr::is_loopback`: first octet 127. -/
def Ipv4.isLoopback (ip : Ipv4) : Bool := ip.a == 127

/-- `Ipv6Addr::is_loopback`: the address `::1`. -/
def Ipv6.isLoopback (ip : Ipv6) : Bool :=
  ip.s0 == 0 && ip.s1 == 0 && ip.s2 == 0 && ip.s3 == 0 &&
  ip.s4 == 0 && ip.s5 == 0 && ip.s6 == 0 && ip.s7 == 1

/-- `IpAddr::is_loopback`. -/
def IpAddr.isLoopback : IpAddr → Bool
  | .v4 ip => ip.isLoopback
  | .v6 ip => ip.isLoopback

/-- `Ipv4Addr::is_link_local`: 169.254.0.0/16. -/
def Ipv4.isLinkLocal (ip : Ipv4) : Bool := ip.a == 169 && ip.b == 254

/-- `std::net::SocketAddr`, as used by the dispatcher and handshake. -/
structure SocketAddr where
  ip : IpAddr
  port : Nat
deriving DecidableEq, Repr

def SocketAddr.withPort (s : SocketAddr) (p : Nat) : SocketAddr := ⟨s.ip, p⟩

/-! ## net.rs -/

/-- `net::is_local_address`: loopback, or v4 link-local, or v6 link-local
(`fe80::/10`, tested as `segments()[0] & 0xffc0 == 0xfe80`). -/
def is_local_address (addr : IpAddr) : Bool :=
  if addr.isLoopback then true
  else match addr with
    | .v4 ip => ip.isLinkLocal
    | .v6 ip => ip.s0 &&& 0xffc0 == 0xfe80

/-- `net::get_valid_addresses`.  The OS-dependent `bind_socket(addr).is_ok()`
probe is abstracted as the predicate `bindOk`. -/
def get_valid_addresses (bindOk : IpAddr → Bool) (addresses : List IpAddr) :
    List IpAddr :=
  (addresses.filter (fun a => ! is_local_address a)).filter bindOk

/-! ## weighted_rr.rs: raw and resolved weighted addresses -/

/-- `RawWeightedAddress { interface: RawInterface, weight: NonZeroUsize }`.
`RawInterface` is a plain string wrapper; `weight` is kept as a `Nat`
(positivity of `NonZeroUsize` appears as hypotheses where needed). -/
structure RawWeightedAddress where
  interface : String
  weight : Nat
deriving DecidableEq, Repr

/-- Decimal digit character, `'0'..'9'`. -/
def digitChar (d : Nat) : Char := Char.ofNat (48 + d)

def isDigitChar (c : Char) : Bool := 48 ≤ c.toNat && c.toNat ≤ 57

/-- Little-endian decimal digits of `n` (least significant first), fuelled
structural recursion so that the kernel can evaluate it. -/
def toDigitsRev (fuel n : Nat) : List Nat :=
  match fuel with
  | 0 => []
  | fuel + 1 => if n = 0 then [] else n % 10 :: toDigitsRev fuel (n / 10)

def natDigitsRev (n : Nat) : List Nat := toDigitsRev n n

/-- Decimal rendering of a `Nat`; models `usize`/`NonZeroUsize` `Display`. -/
def natToString (n : Nat) : String :=
  if n = 0 then "0" else ⟨(natDigitsRev n).reverse.map digitChar⟩

/-- Decimal parsing of a digit string; models `usize::from_str` on the
canonical (sign-free) forms the claims exercise. -/
def parseNat (s : String) : Option Nat :=
  let cs := s.data
  if cs ≠ [] ∧ cs.all isDigitChar then
    some (cs.foldl (fun a c => 10 * a + (c.toNat - 48)) 0)
  else none

/-- Value of a least-significant-first digit list. -/
def fromDigitsLSF (l : List Nat) : Nat := l.foldr (fun d acc => d + 10 * acc) 0

/-- `NonZeroUsize::from_str`: decimal parse rejecting zero. -/
def parsePositiveNat (s : String) : Option Nat :=
  match parseNat s with
  | some 0 => none
  | some n => some n
  | none => none

/-- Split of a char list at every occurrence of `sep`, keeping empty pieces:
the semantics of Rust's `str::split(char)` and of `String::splitOn` with a
single-character pattern. -/
def splitCharList (sep : Char) : List Char → List (List Char)
  | [] => [[]]
  | c :: rest =>
    if c = sep then [] :: splitCharList sep rest
    else
      match splitCharList sep rest with
      | [] => [[c]]
      | l :: ls => (c :: l) :: ls

def splitChar (sep : Char) (s : String) : List String :=
  (splitCharList sep s.data).map (fun l => ⟨l⟩)

/-- `RawWeightedAddress::from_str`: split on `'/'`; the part before the first
slash is the interface, the (optional) second part parses as the weight,
defaulting to 1; any further parts are ignored by the iterator. -/
def rawWeightedAddressFromStr (src : String) : Option RawWeightedAddress :=
  match splitChar '/' src with
  | [] => none
  | interface :: rest =>
    match rest.head? with
    | none => some ⟨interface, 1⟩
    | some w =>
      match parsePositiveNat w with
      | some weight => some ⟨interface, weight⟩
      | none => none

/-- `weighted_rr::Interface`. -/
inductive Interface where
  | named (name : String) (ipv4 : Option Ipv4) (ipv6 : Option Ipv6)
  | ip (addr : IpAddr)
deriving DecidableEq, Repr

/-- `weighted_rr::WeightedAddress`. -/
structure WeightedAddress where
  interface : Interface
  weight : Nat
deriving DecidableEq, Repr

/-! ### IP address text (std `Display`/`FromStr` for ip addresses)

Modelled from the standard library behaviour on the canonical forms the
claims exercise: dotted-decimal for IPv4; for IPv6, lower-case hex groups
with the longest zero run compressed (IPv4-embedded text forms are not
modelled; no claim evaluates them). -/

def ipv4ToString (ip : Ipv4) : String :=
  natToString ip.a ++ "." ++ natToString ip.b ++ "." ++ natToString ip.c ++
    "." ++ natToString ip.d

def hexDigitChar (d : Nat) : Char :=
  if d < 10 then Char.ofNat (48 + d) else Char.ofNat (87 + d)

def toHexDigitsRev (fuel n : Nat) : List Nat :=
  match fuel with
  | 0 => []
  | fuel + 1 => if n = 0 then [] else n % 16 :: toHexDigitsRev fuel (n / 16)

/-- Lower-case hex rendering of a 16-bit group, as a char list. -/
def hexChars (n : Nat) : List Char :=
  if n = 0 then ['0'] else (toHexDigitsRev n n).reverse.map hexDigitChar

/-- Join char-list pieces with a separator (`intercalate`). -/
def joinChars (sep : Char) : List (List Char) → List Char
  | [] => []
  | [l] => l
  | l :: ls => l ++ sep :: joinChars sep ls

def natToHexString (n : Nat) : String := ⟨hexChars n⟩

def Ipv6.segments (ip : Ipv6) : List Nat :=
  [ip.s0, ip.s1, ip.s2, ip.s3, ip.s4, ip.s5, ip.s6, ip.s7]

/-- Longest run of zeros in a segment list: returns (start, length) of the
leftmost longest run. -/
def longestZeroRun (segs : List Nat) : Nat × Nat :=
  let rec go (i curStart curLen bestStart bestLen : Nat) :
      List Nat → Nat × Nat
    | [] => if curLen > bestLen then (curStart, curLen) else (bestStart, bestLen)
    | s :: rest =>
      if s = 0 then
        go (i + 1) curStart (curLen + 1) bestStart bestLen rest
      else
        if curLen > bestLen then go (i + 1) (i + 1) 0 curStart curLen rest
        else go (i + 1) (i + 1) 0 bestStart bestLen rest
  go 0 0 0 0 0 segs

def ipv6ToString (ip : Ipv6) : String :=
  let segs := ip.segments
  let run := longestZeroRun segs
  if run.2 ≤ 1 then
    ⟨joinChars ':' (segs.map hexChars)⟩
  else
    ⟨joinChars ':' ((segs.take run.1).map hexChars) ++
      ':' :: ':' :: joinChars ':' ((segs.drop (run.1 + run.2)).map hexChars)⟩

def ipToString : IpAddr → String
  | .v4 ip => ipv4ToString ip
  | .v6 ip => ipv6ToString ip

/-- IPv4 dotted-decimal parse: four decimal octets ≤ 255. -/
def parseIpv4 (s : String) : Option Ipv4 :=
  match splitChar '.' s with
  | [sa, sb, sc, sd] =>
    match parseNat sa, parseNat sb, parseNat sc, parseNat sd with
    | some a, some b, some c, some d =>
      if a ≤ 255 && b ≤ 255 && c ≤ 255 && d ≤ 255 then some ⟨a, b, c, d⟩
      else none
    | _, _, _, _ => none
  | _ => none

def parseHexNat (s : String) : Option Nat :=
  let cs := s.data
  let hexVal (c : Char) : Option Nat :=
    if 48 ≤ c.toNat && c.toNat ≤ 57 then some (c.toNat - 48)
    else if 97 ≤ c.toNat && c.toNat ≤ 102 then some (c.toNat - 87)
    else if 65 ≤ c.toNat && c.toNat ≤ 70 then some (c.toNat - 55)
    else none
  if cs = [] || cs.length > 4 then none
  else
    cs.foldl (fun acc c =>
      match acc, hexVal c with
      | some a, some v => some (16 * a + v)
      | _, _ => none) (some 0)

def parseHexGroups (parts : List String) : Option (List Nat) :=
  parts.foldr (fun p acc =>
    match parseHexNat p, acc with
    | some v, some l => some (v :: l)
    | _, _ => none) (some [])

def segsToIpv6 (l : List Nat) : Option Ipv6 :=
  match l with
  | [a, b, c, d, e, f, g, h] => some ⟨a, b, c, d, e, f, g, h⟩
  | _ => none

/-- First occurrence of a `"::"` separator in a char list. -/
def findDoubleColon : List Char → Option (List Char × List Char)
  | ':' :: ':' :: rest => some ([], rest)
  | c :: rest => (findDoubleColon rest).map (fun p => (c :: p.1, p.2))
  | [] => none

/-- IPv6 textual parse (full form and `::`-compressed form; IPv4-embedded
forms are not modelled, no claim exercises them). -/
def parseIpv6 (s : String) : Option Ipv6 :=
  let cs := s.data
  match findDoubleColon cs with
  | none =>
    match parseHexGroups ((splitCharList ':' cs).map (fun l => ⟨l⟩)) with
    | some segs => if segs.length = 8 then segsToIpv6 segs else none
    | none => none
  | some (left, right) =>
    if (findDoubleColon right).isSome then none
    else
      let leftParts : List String :=
        if left = [] then [] else (splitCharList ':' left).map (fun l => ⟨l⟩)
      let rightParts : List String :=
        if right = [] then [] else (splitCharList ':' right).map (fun l => ⟨l⟩)
      match parseHexGroups leftParts, parseHexGroups rightParts with
      | some ls, some rs =>
        if ls.length + rs.length ≤ 7 then
          segsToIpv6 (ls ++ List.replicate (8 - ls.length - rs.length) 0 ++ rs)
        else none
      | _, _ => none

/-- `IpAddr::from_str`: IPv4 first, then IPv6. -/
def parseIpAddr (s : String) : Option IpAddr :=
  match parseIpv4 s with
  | some ip => some (.v4 ip)
  | none =>
    match parseIpv6 s with
    | some ip => some (.v6 ip)
    | none => none

/-! ### WeightedAddress::resolve -/

/-- One OS network interface as seen through the `network_interface` crate:
its name and the IPs of its attached addresses (`addr.ip()` for each). -/
structure NetInterface where
  name : String
  addr : List IpAddr
deriving DecidableEq, Repr

/-- The `interfaces_by_name` HashMap built in `resolve`: on duplicate names
the last entry wins, hence the reversed search. -/
def lookupInterface (interfaces : List NetInterface) (s : String) :
    Option NetInterface :=
  interfaces.reverse.find? (fun ni => ni.name == s)

inductive ResolveErr where
  | loopbackAddress (ip : IpAddr)
  | noAddressesFound (name : String)
  | parseFailed (s : String)
deriving DecidableEq, Repr

def firstV4 (addrs : List IpAddr) : Option Ipv4 :=
  addrs.foldr (fun a acc => match a with | .v4 ip => some ip | .v6 _ => acc) none

def firstV6 (addrs : List IpAddr) : Option Ipv6 :=
  addrs.foldr (fun a acc => match a with | .v6 ip => some ip | .v4 _ => acc) none

/-- `WeightedAddress::resolve`, one element.  Mirrors the loop body: try the
interface table first; partition its valid addresses by family and take the
first of each, rejecting loopbacks (dead branches in practice, kept for
fidelity) and interfaces with no usable address; otherwise parse the string
as a literal IP (note: no loopback check on this path). -/
def resolveOne (bindOk : IpAddr → Bool) (interfaces : List NetInterface)
    (raw : RawWeightedAddress) : Except ResolveErr WeightedAddress :=
  match lookupInterface interfaces raw.interface with
  | some ni =>
    let valid := get_valid_addresses bindOk ni.addr
    let ipv4? := firstV4 valid
    let ipv6? := firstV6 valid
    match ipv4? with
    | some ip4 =>
      if ip4.isLoopback then .error (.loopbackAddress (.v4 ip4))
      else match ipv6? with
        | some ip6 =>
          if ip6.isLoopback then .error (.loopbackAddress (.v6 ip6))
          else .ok ⟨.named ni.name (some ip4) (some ip6), raw.weight⟩
        | none => .ok ⟨.named ni.name (some ip4) none, raw.weight⟩
    | none =>
      match ipv6? with
      | some ip6 =>
        if ip6.isLoopback then .error (.loopbackAddress (.v6 ip6))
        else .ok ⟨.named ni.name none (some ip6), raw.weight⟩
      | none => .error (.noAddressesFound ni.name)
  | none =>
    match parseIpAddr raw.interface with
    | some ip => .ok ⟨.ip ip, raw.weight⟩
    | none => .error (.parseFailed raw.interface)

/-- `WeightedAddress::resolve`: the whole loop, stopping at the first error. -/
def resolve (bindOk : IpAddr → Bool) (interfaces : List NetInterface) :
    List RawWeightedAddress → Except ResolveErr (List WeightedAddress)
  | [] => .ok []
  | raw :: rest => do
    let wa ← resolveOne bindOk interfaces raw
    let was ← resolve bindOk interfaces rest
    .ok (wa :: was)

/-- `impl Display for WeightedAddress`: `"{name}/{weight}"` followed by
`" ({ipv4})"` and `" ({ipv6})"` when present, or `"{ip}/{weight}"`. -/
def weightedAddressDisplay (wa : WeightedAddress) : String :=
  match wa.interface with
  | .named name ipv4 ipv6 =>
    name ++ "/" ++ natToString wa.weight ++
      (match ipv4 with
       | some ip => " (" ++ ipv4ToString ip ++ ")"
       | none => "") ++
      (match ipv6 with
       | some ip => " (" ++ ipv6ToString ip ++ ")"
       | none => "")
  | .ip ip => ipToString ip ++ "/" ++ natToString wa.weight

/-! ## weighted_rr.rs: the dispatcher -/

/-- `weighted_rr::WeightedIp`. -/
structure WeightedIp where
  ip : IpAddr
  weight : Nat
deriving DecidableEq, Repr

/-- `weighted_rr::State`: one family's round-robin state. -/
structure State where
  ips : List WeightedIp
  ip_idx : Nat
  count : Nat
deriving DecidableEq, Repr

/-- `WeightedRoundRobinDispatcherInner`. -/
structure Inner where
  ipv4 : State
  ipv6 : State
deriving DecidableEq, Repr

def WeightedAddress.v4Entries (a : WeightedAddress) : List WeightedIp :=
  match a.interface with
  | .named _ (some ip4) _ => [⟨.v4 ip4, a.weight⟩]
  | .named _ none _ => []
  | .ip (.v4 ip4) => [⟨.v4 ip4, a.weight⟩]
  | .ip (.v6 _) => []

def WeightedAddress.v6Entries (a : WeightedAddress) : List WeightedIp :=
  match a.interface with
  | .named _ _ (some ip6) => [⟨.v6 ip6, a.weight⟩]
  | .named _ _ none => []
  | .ip (.v6 ip6) => [⟨.v6 ip6, a.weight⟩]
  | .ip (.v4 _) => []

/-- `WeightedRoundRobinDispatcherInner::new`.  The `debug_assert!` that the
address list is non-empty is modelled as the `none` case. -/
def Inner.new (addresses : List WeightedAddress) : Option Inner :=
  if addresses.isEmpty then none
  else
    some
      { ipv4 := ⟨addresses.flatMap WeightedAddress.v4Entries, 0, 0⟩
        ipv6 := ⟨addresses.flatMap WeightedAddress.v6Entries, 0, 0⟩ }

/-- Outcome of one `dispatch` call. -/
inductive DispatchOut where
  | mismatch (remote : SocketAddr)
  | panic
  | ok (ip : IpAddr)
deriving DecidableEq, Repr

/-- The body of `dispatch` after `select_state` succeeded (lines 264-272):
read `ips[ip_idx]`, bump `count`, advance the cursor on saturation.  `panic`
models the Rust index-out-of-bounds panic; it is unreachable from states
satisfying the cursor invariant. -/
def State.stepOut (s : State) : DispatchOut × State :=
  match s.ips.get? s.ip_idx with
  | none => (.panic, s)
  | some wip =>
    let count := s.count + 1
    if count = wip.weight then
      (.ok wip.ip, ⟨s.ips, (s.ip_idx + 1) % s.ips.length, 0⟩)
    else
      (.ok wip.ip, ⟨s.ips, s.ip_idx, count⟩)

def Inner.stateFor (inner : Inner) : Family → State
  | .v4 => inner.ipv4
  | .v6 => inner.ipv6

def Inner.setStateFor (inner : Inner) : Family → State → Inner
  | .v4, s => { inner with ipv4 := s }
  | .v6, s => { inner with ipv6 := s }

/-- `WeightedRoundRobinDispatcherInner::dispatch` with `select_state`
inlined: pick the family state of the remote's IP; error (leaving the state
untouched) when its list is empty; otherwise perform the round-robin step. -/
def Inner.dispatch (inner : Inner) (remote : SocketAddr) :
    DispatchOut × Inner :=
  let fam := remote.ip.family
  let s := inner.stateFor fam
  if s.ips.isEmpty then (.mismatch remote, inner)
  else
    let (out, s') := s.stepOut
    (out, inner.setStateFor fam s')

/-- Repeated dispatch: outcomes of dispatching a list of remotes in order. -/
def Inner.dispatchSeq (inner : Inner) :
    List SocketAddr → List DispatchOut × Inner
  | [] => ([], inner)
  | r :: rs =>
    let (out, inner') := inner.dispatch r
    let (outs, inner'') := inner'.dispatchSeq rs
    (out :: outs, inner'')

/-! ## socks.rs: the handshake engine

Byte streams are modelled as lists of byte values (`Nat`); the ASCII bytes
the claims exercise coincide with `String::from_utf8_lossy`'s behaviour on
them.  Each fallible OS/network interaction (the further read of the HTTP
probe, greeting and request parsing, DNS lookup, dispatcher call, bind and
connect) is an environment field holding its outcome. -/

def strBytes (s : String) : List Nat := s.data.map Char.toNat

/-- The `HTTP_METHODS` constant, as byte strings. -/
def HTTP_METHODS : List (List Nat) :=
  [strBytes "GET", strBytes "HEAD", strBytes "POST", strBytes "PUT",
   strBytes "DELETE", strBytes "CONNECT", strBytes "OPTIONS",
   strBytes "TRACE", strBytes "PATCH"]

/-- The match arm `'C' | 'G' | 'P' | 'H' | 'D' | 'O' | 'T'` of
`handle_version_error`, on byte values. -/
def isHttpMethodStartByte (b : Nat) : Bool :=
  b == 67 || b == 71 || b == 80 || b == 72 || b == 68 || b == 79 || b == 84

/-- `out.split("\r\n").next().unwrap()`: the content up to the first CRLF
(the whole content when no CRLF occurs). -/
def firstLine : List Nat → List Nat
  | 13 :: 10 :: _ => []
  | x :: rest => x :: firstLine rest
  | [] => []

/-- SOCKSv5 request statuses (socksv5 crate `SocksV5RequestStatus`), with
their wire byte values. -/
inductive V5Status where
  | success
  | serverFailure
  | connectionNotAllowed
  | networkUnreachable
  | hostUnreachable
  | connectionRefused
  | ttlExpired
  | commandNotSupported
  | addressTypeNotSupported
deriving DecidableEq, Repr

/-- SOCKSv4 request statuses. -/
inductive V4Status where
  | granted
  | failed
deriving DecidableEq, Repr

inductive V5Command where
  | connect
  | bind
  | udpAssociate
deriving DecidableEq, Repr

inductive V4Command where
  | connect
  | bind
deriving DecidableEq, Repr

/-- `SocksV5Host`. A domain carries its raw bytes plus whether
`String::from_utf8` accepts them. -/
inductive V5Host where
  | ipv4 (ip : Ipv4)
  | ipv6 (ip : Ipv6)
  | domain (utf8Valid : Bool) (name : String)
deriving DecidableEq, Repr

inductive V4Host where
  | ip (ip : Ipv4)
  | domain (utf8Valid : Bool) (name : String)
deriving DecidableEq, Repr

structure V5Request where
  command : V5Command
  host : V5Host
  port : Nat
deriving DecidableEq, Repr

structure V4Request where
  command : V4Command
  host : V4Host
  port : Nat
deriving DecidableEq, Repr

/-- Everything the handshake writes to the client socket.  `v5Status` and
`v4Status` are the SOCKS replies (request-status messages); `authMethod` is
the two-byte v5 method selection message, which is not a reply. -/
inductive WriteEvent where
  | authMethod (m : Nat)
  | v5Status (status : V5Status) (host : V5Host) (port : Nat)
  | v4Status (status : V4Status) (ip : Ipv4) (port : Nat)
deriving DecidableEq, Repr

def WriteEvent.isReply : WriteEvent → Bool
  | .authMethod _ => false
  | .v5Status _ _ _ => true
  | .v4Status _ _ _ => true

def countReplies (ws : List WriteEvent) : Nat :=
  (ws.filter WriteEvent.isReply).length

/-- Per-connection handshake errors (the `eyre` reports, by category). -/
inductive HsErr where
  | ioError
  | invalidSocksVersion (b : Nat)
  | httpClientOnSocksListener (line : List Nat)
  | probeReadFailed (b : Nat)
  | authUnsupported
  | utf8Error
  | unsupportedCommandV5 (cmd : V5Command)
  | unsupportedCommandV4 (cmd : V4Command)
  | hostResolutionFailed
  | dispatchFailed
  | localAddressInaccessible (ip : IpAddr) (code : Option Int)
  | bindIoError (code : Option Int)
  | remoteConnectFailed (code : Option Int)
deriving DecidableEq, Repr

/-- Outcome of `socksv5::read_version`. -/
inductive VersionOutcome where
  | v4
  | v5
  | invalid (b : Nat)
  | ioError
deriving DecidableEq, Repr

/-- `SocksHandshake::handle_version_error`.  `readOut` is the outcome of the
`self.reader.read(&mut out[1..])` call: the bytes obtained (at most 1023, the
buffer is 1024 bytes with `out[0] = byte`), or a read error. -/
def handleVersionError (b : Nat) (readOut : Except Unit (List Nat)) : HsErr :=
  if isHttpMethodStartByte b then
    match readOut with
    | .error _ => .probeReadFailed b
    | .ok chunk =>
      let content := b :: chunk.take 1023
      if HTTP_METHODS.any (fun m => m.isPrefixOf content) then
        .httpClientOnSocksListener (firstLine content)
      else .invalidSocksVersion b
  else .invalidSocksVersion b

/-- `net::bind_socket` outcome: `()` for a bound socket, or the I/O error's
`raw_os_error`. -/
abbrev BindOutcome := Except (Option Int) Unit

/-- `socks::try_bind_socket`: wrap the bind error in
`LocalAddressInaccessible` exactly when `raw_os_error() == Some(49)`
(the code's hard-coded "Can't assign requested address" value). -/
def tryBindSocket (addr : IpAddr) (bindRes : BindOutcome) :
    Except HsErr Unit :=
  match bindRes with
  | .ok _ => .ok ()
  | .error code =>
    if code = some 49 then .error (.localAddressInaccessible addr code)
    else .error (.bindIoError code)

/-- The error-code-to-status table of `handle_connect_v5`: ENETUNREACH,
ETIMEDOUT, ECONNREFUSED, EHOSTUNREACH as Linux numbers, all else
ServerFailure. -/
def connectStatusOf (code : Option Int) : V5Status :=
  if code = some 101 then .networkUnreachable
  else if code = some 110 then .ttlExpired
  else if code = some 111 then .connectionRefused
  else if code = some 113 then .hostUnreachable
  else .serverFailure

/-- `SocksHandshake::handle_connect_v5`: bind via `try_bind_socket`, then
connect; on success write the Success reply with BND 0.0.0.0:0, on connect
failure write the mapped status and fail. -/
def handleConnectV5 (localAddr : IpAddr) (bindRes : BindOutcome)
    (connectRes : Except (Option Int) Unit) :
    List WriteEvent × Except HsErr Unit :=
  match tryBindSocket localAddr bindRes with
  | .error e => ([], .error e)
  | .ok _ =>
    match connectRes with
    | .ok _ =>
      ([.v5Status .success (.ipv4 ⟨0, 0, 0, 0⟩) 0], .ok ())
    | .error code =>
      ([.v5Status (connectStatusOf code) (.ipv4 ⟨0, 0, 0, 0⟩) 0],
       .error (.remoteConnectFailed code))

/-- `SocksHandshake::handle_connect_v4`. -/
def handleConnectV4 (localAddr : IpAddr) (bindRes : BindOutcome)
    (connectRes : Except (Option Int) Unit) :
    List WriteEvent × Except HsErr Unit :=
  match tryBindSocket localAddr bindRes with
  | .error e => ([], .error e)
  | .ok _ =>
    match connectRes with
    | .ok _ => ([.v4Status .granted ⟨0, 0, 0, 0⟩ 0], .ok ())
    | .error code =>
      ([.v4Status .failed ⟨0, 0, 0, 0⟩ 0],
       .error (.remoteConnectFailed code))

/-- `assert_supports_noauth` + `handle_auth`: fail without writing when
Noauth (method 0) is absent, otherwise write the method-selection message. -/
def handleAuth (methods : List Nat) : List WriteEvent × Except HsErr Unit :=
  if methods.contains 0 then ([.authMethod 0], .ok ())
  else ([], .error .authUnsupported)

/-- `SocksHandshake::handle_request_v5`.  `req` is the outcome of
`read_request` (`none` = read/parse failure); `lookupRes` the outcome of the
DNS `lookup` for a domain host (first resolved address, or failure). -/
def handleRequestV5 (req : Option V5Request)
    (lookupRes : Except Unit SocketAddr) :
    List WriteEvent × Except HsErr SocketAddr :=
  match req with
  | none => ([], .error .ioError)
  | some req =>
    match req.command with
    | .connect =>
      match req.host with
      | .ipv4 ip => ([], .ok ⟨.v4 ip, req.port⟩)
      | .ipv6 ip => ([], .ok ⟨.v6 ip, req.port⟩)
      | .domain utf8Valid _ =>
        if utf8Valid then
          match lookupRes with
          | .ok addr => ([], .ok (addr.withPort req.port))
          | .error _ =>
            ([.v5Status .hostUnreachable (.ipv4 ⟨0, 0, 0, 0⟩) 0],
             .error .hostResolutionFailed)
        else ([], .error .utf8Error)
    | cmd =>
      ([.v5Status .commandNotSupported (.ipv4 ⟨0, 0, 0, 0⟩) 0],
       .error (.unsupportedCommandV5 cmd))

/-- `SocksHandshake::handle_request_v4`. -/
def handleRequestV4 (req : Option V4Request)
    (lookupRes : Except Unit SocketAddr) :
    List WriteEvent × Except HsErr SocketAddr :=
  match req with
  | none => ([], .error .ioError)
  | some req =>
    match req.command with
    | .connect =>
      match req.host with
      | .ip ip => ([], .ok ⟨.v4 ip, req.port⟩)
      | .domain utf8Valid _ =>
        if utf8Valid then
          match lookupRes with
          | .ok addr => ([], .ok addr)
          | .error _ =>
            ([.v4Status .failed ⟨0, 0, 0, 0⟩ 0],
             .error .hostResolutionFailed)
        else ([], .error .utf8Error)
    | cmd =>
      ([.v4Status .failed ⟨0, 0, 0, 0⟩ 0],
       .error (.unsupportedCommandV4 cmd))

/-- The environment of one handshake: the outcome of every read and of every
OS/network interaction along the way.  Fields irrelevant to the path taken
are simply unused. -/
structure HsEnv where
  version : VersionOutcome
  httpProbeRead : Except Unit (List Nat)
  greeting : Option (List Nat)
  v5request : Option V5Request
  v4request : Option V4Request
  lookupResult : Except Unit SocketAddr
  dispatchResult : Except Unit IpAddr
  bindResult : BindOutcome
  connectResult : Except (Option Int) Unit

/-- `SocksHandshake::handshake` (with `handle_handshake_with_version`):
the full per-connection state machine, returning every write made to the
client and the overall outcome (`.ok ()` = connected stream handed over). -/
def handshake (env : HsEnv) : List WriteEvent × Except HsErr Unit :=
  match env.version with
  | .ioError => ([], .error .ioError)
  | .invalid b => ([], .error (handleVersionError b env.httpProbeRead))
  | .v5 =>
    match env.greeting with
    | none => ([], .error .ioError)
    | some methods =>
      let (w1, r1) := handleAuth methods
      match r1 with
      | .error e => (w1, .error e)
      | .ok _ =>
        let (w2, r2) := handleRequestV5 env.v5request env.lookupResult
        match r2 with
        | .error e => (w1 ++ w2, .error e)
        | .ok _host =>
          match env.dispatchResult with
          | .error _ => (w1 ++ w2, .error .dispatchFailed)
          | .ok localAddr =>
            let (w3, r3) :=
              handleConnectV5 localAddr env.bindResult env.connectResult
            (w1 ++ w2 ++ w3, r3)
  | .v4 =>
    let (w2, r2) := handleRequestV4 env.v4request env.lookupResult
    match r2 with
    | .error e => (w2, .error e)
    | .ok _host =>
      match env.dispatchResult with
      | .error _ => (w2, .error .dispatchFailed)
      | .ok localAddr =>
        let (w3, r3) :=
          handleConnectV4 localAddr env.bindResult env.connectResult
        (w2 ++ w3, r3)

/-! ## Specification-side vocabulary for the dispatcher claims -/

/-- The flattening of a weighted list: `ip_1` repeated `w_1` times, then
`ip_2` repeated `w_2` times, and so on. -/
def flatIps (ips : List WeightedIp) : List IpAddr :=
  ips.flatMap (fun w => List.replicate w.weight w.ip)

/-- Total weight of a family list. -/
def sumW (ips : List WeightedIp) : Nat := (ips.map WeightedIp.weight).sum

/-- The `k`-th element of the infinite cyclic repetition of `l`. -/
def cyclicGet (l : List IpAddr) (k : Nat) : IpAddr :=
  l.getD (k % l.length) (.v4 ⟨0, 0, 0, 0⟩)

/-- All weights strictly positive (the `NonZeroUsize` typing of weights). -/
def PosW (ips : List WeightedIp) : Prop := ∀ w ∈ ips, 0 < w.weight

/-- The family-state invariant: the cursor is in range and the counter is
below the current slot's weight. -/
def StateWf (s : State) : Prop :=
  ∃ wip, s.ips.get? s.ip_idx = some wip ∧ s.count < wip.weight

/-- Position of a family state inside the flattened sequence. -/
def posOf (s : State) : Nat := sumW (s.ips.take s.ip_idx) + s.count

instance (ips : List WeightedIp) : Decidable (PosW ips) :=
  List.decidableBAll _ ips

/-- Spec-side classification: a source contributing to exactly one family
(a literal IP, or a named interface with exactly one address). -/
def isSingleFamily (a : WeightedAddress) : Bool :=
  match a.interface with
  | .ip _ => true
  | .named _ (some _) none => true
  | .named _ none (some _) => true
  | .named _ (some _) (some _) => false
  | .named _ none none => false

/-- Spec-side classification: a dual-stack named source. -/
def isDualStackNamed (a : WeightedAddress) : Bool :=
  match a.interface with
  | .named _ (some _) (some _) => true
  | _ => false

theorem sumW_append (l1 l2 : List WeightedIp) :
    sumW (l1 ++ l2) = sumW l1 + sumW l2 := by
  simp [sumW]

theorem flatIps_length (ips : List WeightedIp) :
    (flatIps ips).length = sumW ips := by
  induction ips with
  | nil => simp [flatIps, sumW]
  | cons w rest ih =>
    simp [flatIps, sumW, List.flatMap_cons] at ih ⊢
    simpa [sumW] using ih

theorem flatIps_get (ips : List WeightedIp) (idx count : Nat)
    (wip : WeightedIp) (hidx : ips.get? idx = some wip)
    (hcount : count < wip.weight) :
    (flatIps ips).get? (sumW (ips.take idx) + count) = some wip.ip := by
  induction ips generalizing idx with
  | nil => simp at hidx
  | cons w rest ih =>
    cases idx with
    | zero =>
      simp at hidx
      subst hidx
      simp only [List.take_zero, sumW, List.map_nil, List.sum_nil, Nat.zero_add]
      rw [flatIps, List.flatMap_cons, List.get?_eq_getElem?,
        List.getElem?_append]
      simp [hcount]
    | succ idx =>
      simp only [List.get?_eq_getElem?, List.getElem?_cons_succ] at hidx
      have := ih idx (by simpa using hidx)
      simp only [List.take_succ_cons, sumW, List.map_cons, List.sum_cons]
      rw [flatIps, List.flatMap_cons, List.get?_eq_getElem?]
      rw [Nat.add_assoc, List.getElem?_append_right (by simp)]
      simp only [List.length_replicate, Nat.add_sub_cancel_left]
      rw [List.get?_eq_getElem?] at this
      exact this

theorem posOf_lt (s : State) (hwf : StateWf s) : posOf s < sumW s.ips := by
  obtain ⟨wip, hget, hcount⟩ := hwf
  have hidx : s.ip_idx < s.ips.length := by
    by_contra h
    rw [List.get?_eq_getElem?, List.getElem?_eq_none (by omega)] at hget
    simp at hget
  calc posOf s = sumW (s.ips.take s.ip_idx) + s.count := rfl
    _ < sumW (s.ips.take s.ip_idx) + wip.weight := by omega
    _ = sumW (s.ips.take (s.ip_idx + 1)) := by
        rw [List.take_succ]
        rw [List.get?_eq_getElem?] at hget
        simp [hget, sumW_append, sumW]
    _ ≤ sumW s.ips := by
        conv_rhs => rw [← List.take_append_drop (s.ip_idx + 1) s.ips]
        rw [sumW_append]
        omega

theorem sumW_pos (l : List WeightedIp) (hpos : PosW l) (hne : l ≠ []) :
    0 < sumW l := by
  cases l with
  | nil => simp at hne
  | cons w rest =>
    have := hpos w (by simp)
    simp only [sumW, List.map_cons, List.sum_cons]
    omega

theorem succ_mod (j L : Nat) : (j % L + 1) % L = (j + 1) % L :=
  Nat.mod_add_mod j L 1

theorem cyclicGet_mod (l : List IpAddr) (k : Nat) :
    cyclicGet l (k % l.length) = cyclicGet l k := by
  simp [cyclicGet, Nat.mod_mod_of_dvd k (dvd_refl l.length)]

theorem cyclicGet_of_get? (l : List IpAddr) (k : Nat) (ip : IpAddr)
    (h : l.get? k = some ip) : cyclicGet l k = ip := by
  have hk : k < l.length := by
    by_contra hk
    rw [List.get?_eq_getElem?, List.getElem?_eq_none (by omega)] at h
    simp at h
  simp [cyclicGet, Nat.mod_eq_of_lt hk, List.getD_eq_getElem?_getD,
    ← List.get?_eq_getElem?, h]

/-- One round-robin step from a well-formed state: returns the flattened
sequence's element at the state's position and advances the position by one,
cyclically. -/
theorem stepOut_spec (s : State) (hwf : StateWf s) (hpos : PosW s.ips)
    (hne : s.ips ≠ []) :
    ∃ s', s.stepOut = (.ok (cyclicGet (flatIps s.ips) (posOf s)), s') ∧
      s'.ips = s.ips ∧ StateWf s' ∧
      posOf s' = (posOf s + 1) % sumW s.ips := by
  obtain ⟨wip, hget, hcount⟩ := hwf
  have hidx : s.ip_idx < s.ips.length := by
    by_contra h
    rw [List.get?_eq_getElem?, List.getElem?_eq_none (by omega)] at hget
    simp at hget
  have hlen : 0 < s.ips.length := List.length_pos.mpr hne
  have hflat : (flatIps s.ips).get? (posOf s) = some wip.ip :=
    flatIps_get s.ips s.ip_idx s.count wip hget hcount
  have hout : cyclicGet (flatIps s.ips) (posOf s) = wip.ip :=
    cyclicGet_of_get? _ _ _ hflat
  have hsum_succ : sumW (s.ips.take (s.ip_idx + 1)) =
      sumW (s.ips.take s.ip_idx) + wip.weight := by
    rw [List.take_succ]
    rw [List.get?_eq_getElem?] at hget
    simp [hget, sumW_append, sumW]
  have hsum_take_le : ∀ n, sumW (s.ips.take n) ≤ sumW s.ips := by
    intro n
    conv_rhs => rw [← List.take_append_drop n s.ips]
    rw [sumW_append]
    omega
  by_cases hcase : s.count + 1 = wip.weight
  · refine ⟨⟨s.ips, (s.ip_idx + 1) % s.ips.length, 0⟩, ?_, rfl, ?_, ?_⟩
    · simp only [State.stepOut, hget, hout, hcase, if_pos]
    · have hidx' : (s.ip_idx + 1) % s.ips.length < s.ips.length :=
        Nat.mod_lt _ hlen
      refine ⟨s.ips.get ⟨(s.ip_idx + 1) % s.ips.length, hidx'⟩, ?_, ?_⟩
      · exact List.get?_eq_get hidx'
      · exact hpos _ (List.get_mem _ _ _)
    · by_cases hend : s.ip_idx + 1 < s.ips.length
      · have hmod : (s.ip_idx + 1) % s.ips.length = s.ip_idx + 1 :=
          Nat.mod_eq_of_lt hend
        have hlt : sumW (s.ips.take (s.ip_idx + 1)) < sumW s.ips := by
          conv_rhs =>
            rw [← List.take_append_drop (s.ip_idx + 1) s.ips]
          rw [sumW_append]
          have hdne : s.ips.drop (s.ip_idx + 1) ≠ [] := by
            simp [List.drop_eq_nil_iff]
            omega
          have : 0 < sumW (s.ips.drop (s.ip_idx + 1)) :=
            sumW_pos _ (fun w hw => hpos w (List.mem_of_mem_drop hw)) hdne
          omega
        have hsucc : sumW (s.ips.take s.ip_idx) + s.count + 1 =
            sumW (s.ips.take (s.ip_idx + 1)) := by omega
        have hstep_lt : sumW (s.ips.take s.ip_idx) + s.count + 1 <
            sumW s.ips := by omega
        simp only [posOf, hmod, Nat.add_zero]
        rw [Nat.mod_eq_of_lt hstep_lt]
        omega
      · have heq : s.ip_idx + 1 = s.ips.length := by omega
        have hmod : (s.ip_idx + 1) % s.ips.length = 0 := by
          rw [heq, Nat.mod_self]
        have htake : s.ips.take (s.ip_idx + 1) = s.ips := by
          rw [heq, List.take_length]
        have hfull : sumW (s.ips.take s.ip_idx) + s.count + 1 =
            sumW s.ips := by
          have h2 := hsum_succ
          rw [htake] at h2
          omega
        have hz : sumW (List.take 0 s.ips) = 0 := by simp [sumW]
        simp only [posOf, hmod, Nat.add_zero]
        rw [hz, hfull, Nat.mod_self]
  · have hcount' : s.count + 1 < wip.weight := by omega
    refine ⟨⟨s.ips, s.ip_idx, s.count + 1⟩, ?_, rfl, ⟨wip, hget, hcount'⟩, ?_⟩
    · simp only [State.stepOut, hget, hout, hcase, if_neg, if_false]
    · have hwf' : StateWf ⟨s.ips, s.ip_idx, s.count + 1⟩ :=
        ⟨wip, hget, hcount'⟩
      have hlt := posOf_lt _ hwf'
      simp only [posOf] at hlt ⊢
      rw [Nat.mod_eq_of_lt (by omega)]
      omega

theorem stateFor_setStateFor (inner : Inner) (fam : Family) (s : State) :
    (inner.setStateFor fam s).stateFor fam = s := by
  cases fam <;> rfl

/-- Dispatching a sequence of remotes, all of one family, from a state at
cyclic position `j`, yields the flattened sequence read cyclically from
position `j`, and leaves the family at position `j + length`. -/
theorem dispatchSeq_cyclic (fam : Family) :
    ∀ (remotes : List SocketAddr) (inner : Inner) (j : Nat),
      (∀ r ∈ remotes, r.ip.family = fam) →
      (inner.stateFor fam).ips ≠ [] →
      PosW (inner.stateFor fam).ips →
      StateWf (inner.stateFor fam) →
      posOf (inner.stateFor fam) = j % sumW (inner.stateFor fam).ips →
      (inner.dispatchSeq remotes).1 =
        (List.range remotes.length).map
          (fun k =>
            DispatchOut.ok (cyclicGet (flatIps (inner.stateFor fam).ips) (j + k)))
      ∧ ((inner.dispatchSeq remotes).2.stateFor fam).ips =
          (inner.stateFor fam).ips
      ∧ StateWf ((inner.dispatchSeq remotes).2.stateFor fam)
      ∧ posOf ((inner.dispatchSeq remotes).2.stateFor fam) =
          (j + remotes.length) % sumW (inner.stateFor fam).ips := by
  intro remotes
  induction remotes with
  | nil =>
    intro inner j _ _ _ hwf hpos
    simpa [Inner.dispatchSeq] using ⟨hwf, hpos⟩
  | cons r rs ih =>
    intro inner j hfam hne hposw hwf hposition
    have hrfam : r.ip.family = fam := hfam r (by simp)
    obtain ⟨s', hstep, hips', hwf', hpos'⟩ :=
      stepOut_spec (inner.stateFor fam) hwf hposw hne
    have hne' : (inner.stateFor fam).ips.isEmpty = false := by
      rw [Bool.eq_false_iff]
      intro h
      exact hne (List.isEmpty_iff.mp h)
    have hdispatch : inner.dispatch r =
        (.ok (cyclicGet (flatIps (inner.stateFor fam).ips)
          (posOf (inner.stateFor fam))), inner.setStateFor fam s') := by
      simp only [Inner.dispatch, hrfam, hne', hstep]
      simp
    have hinner' : (inner.setStateFor fam s').stateFor fam = s' :=
      stateFor_setStateFor inner fam s'
    have hout0 : cyclicGet (flatIps (inner.stateFor fam).ips)
        (posOf (inner.stateFor fam)) =
        cyclicGet (flatIps (inner.stateFor fam).ips) j := by
      rw [hposition, ← flatIps_length]
      exact cyclicGet_mod _ j
    have hposnext : posOf s' = (j + 1) % sumW (inner.stateFor fam).ips := by
      rw [hpos', hposition, succ_mod]
    obtain ⟨hseq, hipsf, hwff, hposf⟩ :=
      ih (inner.setStateFor fam s') (j + 1)
        (fun x hx => hfam x (by simp [hx]))
        (by rw [hinner', hips']; exact hne)
        (by rw [hinner', hips']; exact hposw)
        (by rw [hinner']; exact hwf')
        (by rw [hinner', hips']; exact hposnext)
    rw [hinner', hips'] at hseq hipsf hposf
    constructor
    · show (inner.dispatchSeq (r :: rs)).1 = _
      simp only [Inner.dispatchSeq, hdispatch]
      rw [hseq]
      simp only [List.length_cons, List.range_succ_eq_map, List.map_cons,
        List.map_map, hout0, Nat.add_zero]
      congr 1
      apply List.map_congr_left
      intro k _
      simp only [Function.comp]
      congr 2
      omega
    · refine ⟨?_, ?_, ?_⟩
      · simp only [Inner.dispatchSeq, hdispatch]
        exact hipsf
      · simp only [Inner.dispatchSeq, hdispatch]
        exact hwff
      · simp only [Inner.dispatchSeq, hdispatch, List.length_cons]
        rw [hposf]
        congr 1
        omega

/-- C1: for every dispatcher whose family state holds the non-empty weighted
list `[(ip_1,w_1), ..., (ip_n,w_n)]` (cursor and counter at 0, as after
construction), the outcomes of successive `dispatch` calls for remotes of
that family read the flattened sequence — `ip_1` repeated `w_1` times, then
`ip_2` repeated `w_2` times, ..., then `ip_n` repeated `w_n` times —
cyclically from position 0; and the dispatcher built from
`[(10.0.0.1, 2), (10.0.0.2, 1)]` returns
`10.0.0.1, 10.0.0.1, 10.0.0.2, 10.0.0.1, 10.0.0.1, 10.0.0.2` on six
successive dispatches of the IPv4 remote `1.1.1.1:80`. -/
theorem c1_weighted_round_robin_sequence :
    (∀ (inner : Inner) (fam : Family) (remotes : List SocketAddr),
      (∀ r ∈ remotes, r.ip.family = fam) →
      (inner.stateFor fam).ips ≠ [] →
      PosW (inner.stateFor fam).ips →
      (inner.stateFor fam).ip_idx = 0 →
      (inner.stateFor fam).count = 0 →
      (inner.dispatchSeq remotes).1 =
        (List.range remotes.length).map
          (fun k =>
            DispatchOut.ok (cyclicGet (flatIps (inner.stateFor fam).ips) k)))
    ∧ (Inner.new
          [⟨.ip (.v4 ⟨10, 0, 0, 1⟩), 2⟩, ⟨.ip (.v4 ⟨10, 0, 0, 2⟩), 1⟩]).map
        (fun d =>
          (d.dispatchSeq (List.replicate 6 ⟨.v4 ⟨1, 1, 1, 1⟩, 80⟩)).1) =
      some [.ok (.v4 ⟨10, 0, 0, 1⟩), .ok (.v4 ⟨10, 0, 0, 1⟩),
        .ok (.v4 ⟨10, 0, 0, 2⟩), .ok (.v4 ⟨10, 0, 0, 1⟩),
        .ok (.v4 ⟨10, 0, 0, 1⟩), .ok (.v4 ⟨10, 0, 0, 2⟩)] := by
  constructor
  · intro inner fam remotes hfam hne hposw hidx hcount
    have hwf : StateWf (inner.stateFor fam) := by
      cases h : (inner.stateFor fam).ips with
      | nil => exact absurd h hne
      | cons w rest =>
        refine ⟨w, ?_, ?_⟩
        · rw [hidx, h]
          rfl
        · rw [hcount]
          exact hposw w (by rw [h]; exact List.mem_cons_self _ _)
    have hpos0 : posOf (inner.stateFor fam) =
        0 % sumW (inner.stateFor fam).ips := by
      simp [posOf, hidx, hcount, sumW]
    have h := dispatchSeq_cyclic fam remotes inner 0 hfam hne hposw hwf hpos0
    simpa using h.1
  · decide

/-- Witness for C1: the general part applied to a concrete dispatcher with
a single weight-2 IPv4 entry and two IPv4 remotes. -/
theorem c1_weighted_round_robin_sequence_witness :
    ((Inner.mk ⟨[⟨.v4 ⟨10, 0, 0, 1⟩, 2⟩], 0, 0⟩ ⟨[], 0, 0⟩).dispatchSeq
        [⟨.v4 ⟨1, 1, 1, 1⟩, 80⟩, ⟨.v4 ⟨1, 1, 1, 1⟩, 80⟩]).1 =
      (List.range 2).map
        (fun k =>
          DispatchOut.ok (cyclicGet (flatIps [⟨.v4 ⟨10, 0, 0, 1⟩, 2⟩]) k)) :=
  c1_weighted_round_robin_sequence.1
    (Inner.mk ⟨[⟨.v4 ⟨10, 0, 0, 1⟩, 2⟩], 0, 0⟩ ⟨[], 0, 0⟩) Family.v4
    [⟨.v4 ⟨1, 1, 1, 1⟩, 80⟩, ⟨.v4 ⟨1, 1, 1, 1⟩, 80⟩]
    (by intro r hr; fin_cases hr <;> rfl)
    (by decide) (by decide) (by decide) (by decide)

/-- C2: dispatching a remote whose family has an empty IP list fails with
the address-family-mismatch error (leaving the dispatcher unchanged), while
a dispatch for a remote of the other, non-empty (well-formed) family
succeeds; concretely, the dispatcher built with `[(10.0.0.1, 1)]` fails on
`[::1]:80` and returns `10.0.0.1` for `1.1.1.1:80`. -/
theorem c2_address_family_mismatch :
    (∀ (inner : Inner) (r1 r2 : SocketAddr),
      r1.ip.family ≠ r2.ip.family →
      (inner.stateFor r1.ip.family).ips = [] →
      StateWf (inner.stateFor r2.ip.family) →
      inner.dispatch r1 = (.mismatch r1, inner) ∧
        ∃ ip, (inner.dispatch r2).1 = .ok ip)
    ∧ (Inner.new [⟨.ip (.v4 ⟨10, 0, 0, 1⟩), 1⟩]).map
        (fun d => (d.dispatch ⟨.v6 ⟨0, 0, 0, 0, 0, 0, 0, 1⟩, 80⟩,
          (d.dispatch ⟨.v4 ⟨1, 1, 1, 1⟩, 80⟩).1)) =
      some ((.mismatch ⟨.v6 ⟨0, 0, 0, 0, 0, 0, 0, 1⟩, 80⟩,
          Inner.mk ⟨[⟨.v4 ⟨10, 0, 0, 1⟩, 1⟩], 0, 0⟩ ⟨[], 0, 0⟩),
        .ok (.v4 ⟨10, 0, 0, 1⟩)) := by
  constructor
  · intro inner r1 r2 _ h1 hwf2
    obtain ⟨wip, hget, _⟩ := hwf2
    have hne : (inner.stateFor r2.ip.family).ips ≠ [] := by
      intro h
      rw [h] at hget
      simp at hget
    have hne' : (inner.stateFor r2.ip.family).ips.isEmpty = false := by
      rw [Bool.eq_false_iff]
      intro h
      exact hne (List.isEmpty_iff.mp h)
    refine ⟨by simp [Inner.dispatch, h1], wip.ip, ?_⟩
    simp only [Inner.dispatch, hne', State.stepOut, hget]
    rw [if_neg (by simp)]
    split <;> rfl
  · decide

/-- Witness for C2: the general part applied to a dispatcher holding one
IPv4 entry and no IPv6 entries, with an IPv6 and an IPv4 remote. -/
theorem c2_address_family_mismatch_witness :
    (Inner.mk ⟨[⟨.v4 ⟨10, 0, 0, 1⟩, 1⟩], 0, 0⟩ ⟨[], 0, 0⟩).dispatch
        ⟨.v6 ⟨0, 0, 0, 0, 0, 0, 0, 1⟩, 80⟩ =
      (.mismatch ⟨.v6 ⟨0, 0, 0, 0, 0, 0, 0, 1⟩, 80⟩,
        Inner.mk ⟨[⟨.v4 ⟨10, 0, 0, 1⟩, 1⟩], 0, 0⟩ ⟨[], 0, 0⟩) ∧
    ∃ ip, ((Inner.mk ⟨[⟨.v4 ⟨10, 0, 0, 1⟩, 1⟩], 0, 0⟩ ⟨[], 0, 0⟩).dispatch
        ⟨.v4 ⟨1, 1, 1, 1⟩, 80⟩).1 = .ok ip :=
  c2_address_family_mismatch.1
    (Inner.mk ⟨[⟨.v4 ⟨10, 0, 0, 1⟩, 1⟩], 0, 0⟩ ⟨[], 0, 0⟩)
    ⟨.v6 ⟨0, 0, 0, 0, 0, 0, 0, 1⟩, 80⟩ ⟨.v4 ⟨1, 1, 1, 1⟩, 80⟩
    (by decide) (by decide) ⟨⟨.v4 ⟨10, 0, 0, 1⟩, 1⟩, rfl, by decide⟩

/-- C10: when dispatch fails because the remote's family has an empty IP
list, the dispatcher's entire state (both families' lists, cursors and
counters) is returned unchanged. -/
theorem c10_failed_dispatch_leaves_state_unchanged :
    ∀ (inner : Inner) (remote : SocketAddr),
      (inner.stateFor remote.ip.family).ips = [] →
      inner.dispatch remote = (.mismatch remote, inner) := by
  intro inner remote h
  simp [Inner.dispatch, h]

/-- Witness for C10 at a concrete dispatcher and IPv6 remote. -/
theorem c10_failed_dispatch_leaves_state_unchanged_witness :
    (Inner.mk ⟨[⟨.v4 ⟨10, 0, 0, 1⟩, 2⟩], 1, 0⟩ ⟨[], 0, 0⟩).dispatch
        ⟨.v6 ⟨0, 0, 0, 0, 0, 0, 0, 1⟩, 443⟩ =
      (.mismatch ⟨.v6 ⟨0, 0, 0, 0, 0, 0, 0, 1⟩, 443⟩,
        Inner.mk ⟨[⟨.v4 ⟨10, 0, 0, 1⟩, 2⟩], 1, 0⟩ ⟨[], 0, 0⟩) :=
  c10_failed_dispatch_leaves_state_unchanged
    (Inner.mk ⟨[⟨.v4 ⟨10, 0, 0, 1⟩, 2⟩], 1, 0⟩ ⟨[], 0, 0⟩)
    ⟨.v6 ⟨0, 0, 0, 0, 0, 0, 0, 1⟩, 443⟩ (by decide)

theorem stepOut_ips (s : State) : (s.stepOut).2.ips = s.ips := by
  rcases h : s.ips.get? s.ip_idx with _ | wip <;>
    simp only [State.stepOut, h]
  split <;> rfl

theorem dispatch_preserves_ips (inner : Inner) (r : SocketAddr) :
    ((inner.dispatch r).2).ipv4.ips = inner.ipv4.ips ∧
      ((inner.dispatch r).2).ipv6.ips = inner.ipv6.ips := by
  rcases r with ⟨ip, port⟩
  cases ip <;>
    · simp only [Inner.dispatch, IpAddr.family, Inner.stateFor,
        Inner.setStateFor]
      split
      · exact ⟨rfl, rfl⟩
      · exact ⟨by simp [stepOut_ips], by simp [stepOut_ips]⟩

theorem dispatchSeq_preserves_ips (remotes : List SocketAddr) :
    ∀ inner : Inner,
      ((inner.dispatchSeq remotes).2).ipv4.ips = inner.ipv4.ips ∧
        ((inner.dispatchSeq remotes).2).ipv6.ips = inner.ipv6.ips := by
  induction remotes with
  | nil => intro inner; exact ⟨rfl, rfl⟩
  | cons r rs ih =>
    intro inner
    obtain ⟨h4, h6⟩ := dispatch_preserves_ips inner r
    obtain ⟨h4', h6'⟩ := ih (inner.dispatch r).2
    simp only [Inner.dispatchSeq]
    exact ⟨by rw [← h4, ← h4'], by rw [← h6, ← h6']⟩

theorem v4Entries_family (a : WeightedAddress) (w : WeightedIp)
    (hw : w ∈ a.v4Entries) : w.ip.family = .v4 := by
  rcases a with ⟨intf, weight⟩
  rcases intf with ⟨name, o4, o6⟩ | ip
  · rcases o4 with _ | ip4 <;> simp [WeightedAddress.v4Entries] at hw
    subst hw
    rfl
  · rcases ip with ip4 | ip6 <;> simp [WeightedAddress.v4Entries] at hw
    subst hw
    rfl

theorem v6Entries_family (a : WeightedAddress) (w : WeightedIp)
    (hw : w ∈ a.v6Entries) : w.ip.family = .v6 := by
  rcases a with ⟨intf, weight⟩
  rcases intf with ⟨name, o4, o6⟩ | ip
  · rcases o6 with _ | ip6 <;> simp [WeightedAddress.v6Entries] at hw
    subst hw
    rfl
  · rcases ip with ip4 | ip6 <;> simp [WeightedAddress.v6Entries] at hw
    subst hw
    rfl

theorem entries_count (addrs : List WeightedAddress) :
    (addrs.flatMap WeightedAddress.v4Entries).length +
        (addrs.flatMap WeightedAddress.v6Entries).length =
      addrs.countP isSingleFamily + 2 * addrs.countP isDualStackNamed := by
  induction addrs with
  | nil => rfl
  | cons a rest ih =>
    simp only [List.flatMap_cons, List.length_append, List.countP_cons]
    rcases a with ⟨intf, weight⟩
    rcases intf with ⟨name, o4, o6⟩ | ip
    · rcases o4 with _ | ip4 <;> rcases o6 with _ | ip6 <;>
        · simp [WeightedAddress.v4Entries, WeightedAddress.v6Entries,
            isSingleFamily, isDualStackNamed] at ih ⊢
          omega
    · rcases ip with ip4 | ip6 <;>
        · simp [WeightedAddress.v4Entries, WeightedAddress.v6Entries,
            isSingleFamily, isDualStackNamed] at ih ⊢
          omega

theorem stepOut_ok_mem (s : State) (ip : IpAddr)
    (h : (s.stepOut).1 = .ok ip) : ∃ w ∈ s.ips, w.ip = ip := by
  rcases hget : s.ips.get? s.ip_idx with _ | wip <;>
    simp only [State.stepOut, hget] at h
  · simp at h
  · have hmem : wip ∈ s.ips := List.get?_mem hget
    refine ⟨wip, hmem, ?_⟩
    split at h <;> · simp at h; exact h

/-- C3: for a dispatcher constructed from weighted source addresses,
`ipv4.ips` holds only IPv4 addresses and `ipv6.ips` only IPv6, the total
number of entries equals the number of single-family sources plus twice the
number of dual-stack named sources, and this persists after any sequence of
dispatches; consequently a successful dispatch never returns an address of
the wrong family. -/
theorem c3_family_partitioning :
    ∀ (addrs : List WeightedAddress) (inner : Inner),
      Inner.new addrs = some inner →
      ∀ remotes : List SocketAddr,
        (∀ w ∈ ((inner.dispatchSeq remotes).2).ipv4.ips,
            w.ip.family = .v4) ∧
        (∀ w ∈ ((inner.dispatchSeq remotes).2).ipv6.ips,
            w.ip.family = .v6) ∧
        ((inner.dispatchSeq remotes).2).ipv4.ips.length +
            ((inner.dispatchSeq remotes).2).ipv6.ips.length =
          addrs.countP isSingleFamily + 2 * addrs.countP isDualStackNamed ∧
        (∀ (r : SocketAddr) (ip : IpAddr),
          (((inner.dispatchSeq remotes).2).dispatch r).1 = .ok ip →
          ip.family = r.ip.family) := by
  intro addrs inner hnew remotes
  have hctor : inner.ipv4.ips = addrs.flatMap WeightedAddress.v4Entries ∧
      inner.ipv6.ips = addrs.flatMap WeightedAddress.v6Entries := by
    unfold Inner.new at hnew
    split at hnew
    · simp at hnew
    · simp only [Option.some_inj] at hnew
      rw [← hnew]
      exact ⟨rfl, rfl⟩
  obtain ⟨h4, h6⟩ := dispatchSeq_preserves_ips remotes inner
  have hp4 : ∀ w ∈ ((inner.dispatchSeq remotes).2).ipv4.ips,
      w.ip.family = .v4 := by
    intro w hw
    rw [h4, hctor.1] at hw
    obtain ⟨a, _, hwa⟩ := List.mem_flatMap.mp hw
    exact v4Entries_family a w hwa
  have hp6 : ∀ w ∈ ((inner.dispatchSeq remotes).2).ipv6.ips,
      w.ip.family = .v6 := by
    intro w hw
    rw [h6, hctor.2] at hw
    obtain ⟨a, _, hwa⟩ := List.mem_flatMap.mp hw
    exact v6Entries_family a w hwa
  refine ⟨hp4, hp6, ?_, ?_⟩
  · rw [h4, h6, hctor.1, hctor.2]
    exact entries_count addrs
  · intro r ip hok
    rcases hr : r.ip with ip4 | ip6
    · have hfam : r.ip.family = .v4 := by rw [hr]; rfl
      simp only [Inner.dispatch, hfam, Inner.stateFor] at hok
      split at hok
      · simp at hok
      · obtain ⟨w, hw, hwip⟩ := stepOut_ok_mem _ ip (by
          rcases hsp : ((inner.dispatchSeq remotes).2).ipv4.stepOut
            with ⟨out, s'⟩
          simp only [hsp] at hok ⊢
          simpa using hok)
        rw [← hwip]
        exact hp4 w hw
    · have hfam : r.ip.family = .v6 := by rw [hr]; rfl
      simp only [Inner.dispatch, hfam, Inner.stateFor] at hok
      split at hok
      · simp at hok
      · obtain ⟨w, hw, hwip⟩ := stepOut_ok_mem _ ip (by
          rcases hsp : ((inner.dispatchSeq remotes).2).ipv6.stepOut
            with ⟨out, s'⟩
          simp only [hsp] at hok ⊢
          simpa using hok)
        rw [← hwip]
        exact hp6 w hw

/-- Witness for C3: the entry-count equation for a dispatcher built from one
literal IPv4 source, after one dispatch. -/
theorem c3_family_partitioning_witness :
    (((Inner.mk ⟨[⟨.v4 ⟨10, 0, 0, 1⟩, 1⟩], 0, 0⟩ ⟨[], 0, 0⟩).dispatchSeq
          [⟨.v4 ⟨1, 1, 1, 1⟩, 80⟩]).2).ipv4.ips.length +
        (((Inner.mk ⟨[⟨.v4 ⟨10, 0, 0, 1⟩, 1⟩], 0, 0⟩ ⟨[], 0, 0⟩).dispatchSeq
          [⟨.v4 ⟨1, 1, 1, 1⟩, 80⟩]).2).ipv6.ips.length =
      ([⟨.ip (.v4 ⟨10, 0, 0, 1⟩), 1⟩] : List WeightedAddress).countP
          isSingleFamily +
        2 * ([⟨.ip (.v4 ⟨10, 0, 0, 1⟩), 1⟩] :
          List WeightedAddress).countP isDualStackNamed :=
  (c3_family_partitioning [⟨.ip (.v4 ⟨10, 0, 0, 1⟩), 1⟩]
    (Inner.mk ⟨[⟨.v4 ⟨10, 0, 0, 1⟩, 1⟩], 0, 0⟩ ⟨[], 0, 0⟩) (by decide)
    [⟨.v4 ⟨1, 1, 1, 1⟩, 80⟩]).2.2.1

/-! ## Decimal text round-trip -/

theorem toDigitsRev_lt (fuel : Nat) :
    ∀ n, ∀ d ∈ toDigitsRev fuel n, d < 10 := by
  induction fuel with
  | zero => intro n d hd; simp [toDigitsRev] at hd
  | succ fuel ih =>
    intro n d hd
    by_cases h0 : n = 0
    · simp [toDigitsRev, h0] at hd
    · simp only [toDigitsRev, if_neg h0, List.mem_cons] at hd
      rcases hd with hd | hd
      · subst hd
        exact Nat.mod_lt _ (by omega)
      · exact ih _ d hd

theorem toDigitsRev_ne_nil (fuel n : Nat) (h0 : 0 < n) (hf : 0 < fuel) :
    toDigitsRev fuel n ≠ [] := by
  cases fuel with
  | zero => omega
  | succ fuel => simp [toDigitsRev, Nat.pos_iff_ne_zero.mp h0]

theorem toDigitsRev_val (fuel : Nat) :
    ∀ n, n ≤ fuel → fromDigitsLSF (toDigitsRev fuel n) = n := by
  induction fuel with
  | zero => intro n hn; interval_cases n; rfl
  | succ fuel ih =>
    intro n hn
    by_cases h0 : n = 0
    · simp [toDigitsRev, h0, fromDigitsLSF]
    · have hdiv : n / 10 ≤ fuel := by
        have h2 : n / 10 < n := Nat.div_lt_self (Nat.pos_of_ne_zero h0)
          (by norm_num)
        omega
      have hv := ih (n / 10) hdiv
      simp only [fromDigitsLSF] at hv
      simp only [toDigitsRev, if_neg h0, fromDigitsLSF, List.foldr_cons]
      rw [hv]
      omega

theorem parseDigits_reverse (l : List Nat) :
    List.foldl (fun a d => 10 * a + d) 0 l.reverse = fromDigitsLSF l := by
  induction l with
  | nil => rfl
  | cons d rest ih =>
    simp only [fromDigitsLSF] at ih ⊢
    simp only [List.reverse_cons, List.foldl_append, List.foldl_cons,
      List.foldl_nil, ih, List.foldr_cons]
    omega

theorem digitChar_toNat (d : Nat) (h : d < 10) :
    (digitChar d).toNat = 48 + d := by
  interval_cases d <;> rfl

theorem isDigitChar_digitChar (d : Nat) (h : d < 10) :
    isDigitChar (digitChar d) = true := by
  interval_cases d <;> rfl

theorem foldl_map_digitChar (l : List Nat) :
    ∀ a, (∀ d ∈ l, d < 10) →
      List.foldl (fun a c => 10 * a + (c.toNat - 48)) a (l.map digitChar) =
        List.foldl (fun a d => 10 * a + d) a l := by
  induction l with
  | nil => intro a _; rfl
  | cons d rest ih =>
    intro a hlt
    simp only [List.map_cons, List.foldl_cons]
    rw [digitChar_toNat d (hlt d (by simp))]
    rw [ih _ (fun x hx => hlt x (by simp [hx]))]
    congr 1
    omega

theorem parseNat_natToString (n : Nat) : parseNat (natToString n) = some n := by
  by_cases h0 : n = 0
  · subst h0
    rfl
  · have hlt : ∀ d ∈ natDigitsRev n, d < 10 := toDigitsRev_lt n n
    have hne : natDigitsRev n ≠ [] :=
      toDigitsRev_ne_nil n n (Nat.pos_of_ne_zero h0) (Nat.pos_of_ne_zero h0)
    have hdata : (natToString n).data =
        (natDigitsRev n).reverse.map digitChar := by
      simp [natToString, h0]
    rw [parseNat]
    simp only [hdata]
    rw [if_pos]
    · congr 1
      rw [foldl_map_digitChar _ 0 (fun d hd => hlt d (List.mem_reverse.mp hd))]
      rw [parseDigits_reverse]
      exact toDigitsRev_val n n le_rfl
    · constructor
      · simp [hne]
      · rw [List.all_eq_true]
        intro c hc
        obtain ⟨d, hd, hcd⟩ := List.mem_map.mp hc
        rw [← hcd]
        exact isDigitChar_digitChar d (hlt d (List.mem_reverse.mp hd))

theorem parsePositiveNat_natToString (n : Nat) (h : 0 < n) :
    parsePositiveNat (natToString n) = some n := by
  rw [parsePositiveNat, parseNat_natToString]
  cases n with
  | zero => omega
  | succ m => rfl

theorem natToString_digits (n : Nat) :
    ∀ c ∈ (natToString n).data, isDigitChar c = true := by
  by_cases h0 : n = 0
  · subst h0
    intro c hc
    simp [natToString] at hc
    subst hc
    rfl
  · intro c hc
    rw [natToString] at hc
    simp only [if_neg h0] at hc
    obtain ⟨d, hd, hcd⟩ := List.mem_map.mp hc
    rw [← hcd]
    exact isDigitChar_digitChar d
      (toDigitsRev_lt n n d (List.mem_reverse.mp hd))

theorem isDigitChar_ne_slash (c : Char) (h : isDigitChar c = true) :
    c ≠ '/' := by
  intro he
  subst he
  simp [isDigitChar] at h

/-! ## Character-split lemmas -/

theorem splitCharList_not_mem (sep : Char) (l : List Char)
    (h : ∀ c ∈ l, c ≠ sep) : splitCharList sep l = [l] := by
  induction l with
  | nil => rfl
  | cons c rest ih =>
    rw [splitCharList, if_neg (h c (by simp))]
    rw [ih (fun x hx => h x (by simp [hx]))]

theorem splitCharList_append (sep : Char) (l1 l2 : List Char)
    (h : ∀ c ∈ l1, c ≠ sep) :
    splitCharList sep (l1 ++ sep :: l2) = l1 :: splitCharList sep l2 := by
  induction l1 with
  | nil =>
    simp [splitCharList]
  | cons c rest ih =>
    simp only [List.cons_append]
    rw [splitCharList, if_neg (h c (by simp))]
    rw [ih (fun x hx => h x (by simp [hx]))]

/-! ## Slash-freeness of IP and weight text -/

theorem toHexDigitsRev_lt (fuel : Nat) :
    ∀ n, ∀ d ∈ toHexDigitsRev fuel n, d < 16 := by
  induction fuel with
  | zero => intro n d hd; simp [toHexDigitsRev] at hd
  | succ fuel ih =>
    intro n d hd
    by_cases h0 : n = 0
    · simp [toHexDigitsRev, h0] at hd
    · simp only [toHexDigitsRev, if_neg h0, List.mem_cons] at hd
      rcases hd with hd | hd
      · subst hd
        exact Nat.mod_lt _ (by omega)
      · exact ih _ d hd

theorem hexDigitChar_ne_slash (d : Nat) (h : d < 16) :
    hexDigitChar d ≠ '/' := by
  interval_cases d <;> decide

theorem hexChars_ne_slash (n : Nat) : ∀ c ∈ hexChars n, c ≠ '/' := by
  intro c hc
  by_cases h0 : n = 0
  · simp [hexChars, h0] at hc
    subst hc
    decide
  · rw [hexChars, if_neg h0] at hc
    obtain ⟨d, hd, hcd⟩ := List.mem_map.mp hc
    rw [← hcd]
    exact hexDigitChar_ne_slash d (toHexDigitsRev_lt n n d (List.mem_reverse.mp hd))

theorem joinChars_mem (sep : Char) :
    ∀ (ls : List (List Char)) (c : Char), c ∈ joinChars sep ls →
      c = sep ∨ ∃ l ∈ ls, c ∈ l := by
  intro ls
  induction ls with
  | nil => intro c hc; simp [joinChars] at hc
  | cons l rest ih =>
    intro c hc
    cases rest with
    | nil =>
      right
      exact ⟨l, by simp, by simpa [joinChars] using hc⟩
    | cons l2 rest2 =>
      have heq : joinChars sep (l :: l2 :: rest2) =
          l ++ sep :: joinChars sep (l2 :: rest2) := rfl
      rw [heq] at hc
      rcases List.mem_append.mp hc with h | h
      · exact Or.inr ⟨l, by simp, h⟩
      · rcases List.mem_cons.mp h with h | h
        · exact Or.inl h
        · rcases ih c h with h' | ⟨l', hl', hc'⟩
          · exact Or.inl h'
          · exact Or.inr ⟨l', by simp [hl'], hc'⟩

theorem ipv6ToString_ne_slash (ip : Ipv6) :
    ∀ c ∈ (ipv6ToString ip).data, c ≠ '/' := by
  intro c hc
  rw [ipv6ToString] at hc
  rcases hrun : longestZeroRun ip.segments with ⟨start, len⟩
  simp only [hrun] at hc
  have hjoin : ∀ (segs : List Nat),
      c ∈ joinChars ':' (segs.map hexChars) → c ≠ '/' := by
    intro segs hmem
    rcases joinChars_mem ':' _ c hmem with h | ⟨l, hl, hcl⟩
    · subst h; decide
    · obtain ⟨n, _, hn⟩ := List.mem_map.mp hl
      exact hexChars_ne_slash n c (hn ▸ hcl)
  by_cases hlen : len ≤ 1
  · rw [if_pos hlen] at hc
    exact hjoin _ hc
  · rw [if_neg hlen] at hc
    simp only [] at hc
    rcases List.mem_append.mp hc with h | h
    · exact hjoin _ h
    · rcases List.mem_cons.mp h with h | h
      · subst h; decide
      · rcases List.mem_cons.mp h with h | h
        · subst h; decide
        · exact hjoin _ h

theorem natToString_ne_slash (n : Nat) :
    ∀ c ∈ (natToString n).data, c ≠ '/' :=
  fun c hc => isDigitChar_ne_slash c (natToString_digits n c hc)

theorem ipv4ToString_ne_slash (ip : Ipv4) :
    ∀ c ∈ (ipv4ToString ip).data, c ≠ '/' := by
  intro c hc
  rw [ipv4ToString] at hc
  simp only [String.data_append] at hc
  have hdot : ∀ x ∈ (".".data : List Char), x ≠ '/' := by decide
  rcases List.mem_append.mp hc with h | h
  rotate_left
  · exact natToString_ne_slash ip.d c h
  rcases List.mem_append.mp h with h | h
  rotate_left
  · exact hdot c h
  rcases List.mem_append.mp h with h | h
  rotate_left
  · exact natToString_ne_slash ip.c c h
  rcases List.mem_append.mp h with h | h
  rotate_left
  · exact hdot c h
  rcases List.mem_append.mp h with h | h
  rotate_left
  · exact natToString_ne_slash ip.b c h
  rcases List.mem_append.mp h with h | h
  · exact natToString_ne_slash ip.a c h
  · exact hdot c h

theorem ipToString_ne_slash (ip : IpAddr) :
    ∀ c ∈ (ipToString ip).data, c ≠ '/' := by
  cases ip with
  | v4 ip => exact ipv4ToString_ne_slash ip
  | v6 ip => exact ipv6ToString_ne_slash ip

theorem parseNat_of_space_mem (s : String) (h : ' ' ∈ s.data) :
    parseNat s = none := by
  rw [parseNat]
  rw [if_neg]
  intro ⟨_, hall⟩
  rw [List.all_eq_true] at hall
  have := hall ' ' h
  simp [isDigitChar] at this

theorem parsePositiveNat_of_space_mem (s : String) (h : ' ' ∈ s.data) :
    parsePositiveNat s = none := by
  rw [parsePositiveNat, parseNat_of_space_mem s h]

/-- Parsing any string of the shape `name ++ "/" ++ piece`, where the piece
contains a space and no slash, fails on the weight parse. -/
theorem fromStr_slashfree_with_space (name : String) (piece : List Char)
    (hname : ∀ c ∈ name.data, c ≠ '/')
    (hpiece : ∀ c ∈ piece, c ≠ '/')
    (hspace : ' ' ∈ piece)
    (s : String) (hs : s = ⟨name.data ++ '/' :: piece⟩) :
    rawWeightedAddressFromStr s = none := by
  subst hs
  rw [rawWeightedAddressFromStr]
  have hd : (⟨name.data ++ '/' :: piece⟩ : String).data =
      name.data ++ '/' :: piece := rfl
  rw [splitChar, hd, splitCharList_append '/' _ _ hname,
    splitCharList_not_mem '/' piece hpiece]
  have hp : parsePositiveNat ⟨piece⟩ = none :=
    parsePositiveNat_of_space_mem ⟨piece⟩ hspace
  simp [hp]

/-- C9 (amended): parsing the display string of a literal-IP weighted source
address yields a raw address that resolves back to the same IP and weight
(whenever the IP's text is not also an interface name and the standard
library's IP text round-trip holds, which it does for every address); but
for a named-interface source — whose display always appends the attached
IP(s) after the weight — parsing the display string fails. -/
theorem c9_display_round_trip_amended :
    (∀ (ip : IpAddr) (w : Nat) (bindOk : IpAddr → Bool)
        (interfaces : List NetInterface),
      0 < w →
      lookupInterface interfaces (ipToString ip) = none →
      parseIpAddr (ipToString ip) = some ip →
      rawWeightedAddressFromStr (weightedAddressDisplay ⟨.ip ip, w⟩) =
          some ⟨ipToString ip, w⟩ ∧
        resolveOne bindOk interfaces ⟨ipToString ip, w⟩ = .ok ⟨.ip ip, w⟩)
    ∧ (∀ (name : String) (o4 : Option Ipv4) (o6 : Option Ipv6) (w : Nat),
      o4 ≠ none ∨ o6 ≠ none →
      (∀ c ∈ name.data, c ≠ '/') →
      rawWeightedAddressFromStr
        (weightedAddressDisplay ⟨.named name o4 o6, w⟩) = none) := by
  constructor
  · intro ip w bindOk interfaces hw hlookup hparse
    have hdata : (weightedAddressDisplay ⟨.ip ip, w⟩).data =
        (ipToString ip).data ++ '/' :: (natToString w).data := by
      rw [weightedAddressDisplay]
      simp [String.data_append]
    have hsplit : splitChar '/' (weightedAddressDisplay ⟨.ip ip, w⟩) =
        [ipToString ip, natToString w] := by
      rw [splitChar, hdata,
        splitCharList_append '/' _ _ (ipToString_ne_slash ip),
        splitCharList_not_mem '/' _ (natToString_ne_slash w)]
      rfl
    constructor
    · rw [rawWeightedAddressFromStr, hsplit]
      simp [parsePositiveNat_natToString w hw]
    · rw [resolveOne]
      simp only [hlookup, hparse]
  · intro name o4 o6 w hsome hname
    rcases o4 with _ | ip4
    · rcases o6 with _ | ip6
      · rcases hsome with h | h <;> exact absurd rfl h
      · apply fromStr_slashfree_with_space name
          ((natToString w).data ++ ' ' :: '(' :: (ipv6ToString ip6).data ++
            [')'])
          hname
        · intro c hc
          rcases List.mem_append.mp hc with h | h
          · rcases List.mem_append.mp h with h | h
            · exact natToString_ne_slash w c h
            · rcases List.mem_cons.mp h with h | h
              · subst h; decide
              · rcases List.mem_cons.mp h with h | h
                · subst h; decide
                · exact ipv6ToString_ne_slash ip6 c h
          · simp at h
            subst h; decide
        · simp
        · apply String.ext
          rw [weightedAddressDisplay]
          simp [String.data_append, show ("/" : String).data = ['/'] from rfl,
            show (" (" : String).data = [' ', '('] from rfl,
            show (")" : String).data = [')'] from rfl]
    rcases o6 with _ | ip6
    · apply fromStr_slashfree_with_space name
        ((natToString w).data ++ ' ' :: '(' :: (ipv4ToString ip4).data ++ [')'])
        hname
      · intro c hc
        rcases List.mem_append.mp hc with h | h
        · rcases List.mem_append.mp h with h | h
          · exact natToString_ne_slash w c h
          · rcases List.mem_cons.mp h with h | h
            · subst h; decide
            · rcases List.mem_cons.mp h with h | h
              · subst h; decide
              · exact ipv4ToString_ne_slash ip4 c h
        · simp at h
          subst h; decide
      · simp
      · apply String.ext
        rw [weightedAddressDisplay]
        simp [String.data_append, show ("/" : String).data = ['/'] from rfl,
          show (" (" : String).data = [' ', '('] from rfl,
          show (")" : String).data = [')'] from rfl]
    · apply fromStr_slashfree_with_space name
        ((natToString w).data ++ ' ' :: '(' :: (ipv4ToString ip4).data ++
          ')' :: ' ' :: '(' :: (ipv6ToString ip6).data ++ [')'])
        hname
      · intro c hc
        rcases List.mem_append.mp hc with h | h
        · rcases List.mem_append.mp h with h | h
          · rcases List.mem_append.mp h with h | h
            · exact natToString_ne_slash w c h
            · rcases List.mem_cons.mp h with h | h
              · subst h; decide
              · rcases List.mem_cons.mp h with h | h
                · subst h; decide
                · exact ipv4ToString_ne_slash ip4 c h
          · rcases List.mem_cons.mp h with h | h
            · subst h; decide
            · rcases List.mem_cons.mp h with h | h
              · subst h; decide
              · rcases List.mem_cons.mp h with h | h
                · subst h; decide
                · exact ipv6ToString_ne_slash ip6 c h
        · simp at h
          subst h; decide
      · simp
      · apply String.ext
        rw [weightedAddressDisplay]
        simp [String.data_append, show ("/" : String).data = ['/'] from rfl,
          show (" (" : String).data = [' ', '('] from rfl,
          show (")" : String).data = [')'] from rfl]

/-- Counterexample for C9 as stated: a valid named-interface weighted source
address — produced by `resolve` itself from an interface table — whose
display string `"eth0/1 (10.0.0.1)"` does not parse back at all (the weight
field `"1 (10.0.0.1)"` is not a number). -/
theorem c9_display_round_trip_counterexample :
    resolve (fun _ => true) [⟨"eth0", [.v4 ⟨10, 0, 0, 1⟩]⟩] [⟨"eth0", 1⟩] =
        .ok [⟨.named "eth0" (some ⟨10, 0, 0, 1⟩) none, 1⟩] ∧
      weightedAddressDisplay ⟨.named "eth0" (some ⟨10, 0, 0, 1⟩) none, 1⟩ =
        "eth0/1 (10.0.0.1)" ∧
      rawWeightedAddressFromStr "eth0/1 (10.0.0.1)" = none := by
  refine ⟨?_, ?_, ?_⟩ <;> rfl

/-- Witness for C9 (amended): the literal part at the source `10.0.0.1/2`,
and the named part at an IPv6-only named source. -/
theorem c9_display_round_trip_amended_witness :
    (rawWeightedAddressFromStr
        (weightedAddressDisplay ⟨.ip (.v4 ⟨10, 0, 0, 1⟩), 2⟩) =
        some ⟨ipToString (.v4 ⟨10, 0, 0, 1⟩), 2⟩ ∧
      resolveOne (fun _ => true) []
          ⟨ipToString (.v4 ⟨10, 0, 0, 1⟩), 2⟩ =
        .ok ⟨.ip (.v4 ⟨10, 0, 0, 1⟩), 2⟩) ∧
    rawWeightedAddressFromStr
        (weightedAddressDisplay
          ⟨.named "wg0" none (some ⟨0x2001, 0xdb8, 0, 0, 0, 0, 0, 1⟩), 1⟩) =
      none :=
  ⟨c9_display_round_trip_amended.1 (.v4 ⟨10, 0, 0, 1⟩) 2 (fun _ => true) []
      (by decide) rfl (by rfl),
    c9_display_round_trip_amended.2 "wg0" none
      (some ⟨0x2001, 0xdb8, 0, 0, 0, 0, 0, 1⟩) 1 (Or.inr (by simp))
      (by decide)⟩

/-- Counterexample for C4 as stated: resolving the single literal loopback
source `127.0.0.1` succeeds — no loopback check exists on the literal-IP
path — so construction from a list containing a loopback source does not
fail. -/
theorem c4_construction_rejection_counterexample :
    resolve (fun _ => true) [] [⟨"127.0.0.1", 1⟩] =
        .ok [⟨.ip (.v4 ⟨127, 0, 0, 1⟩), 1⟩] ∧
      (IpAddr.v4 ⟨127, 0, 0, 1⟩).isLoopback = true ∧
      (Inner.new [⟨.ip (.v4 ⟨127, 0, 0, 1⟩), 1⟩]).isSome = true :=
  ⟨rfl, rfl, rfl⟩

/-- C4 (amended): constructing a dispatcher from zero addresses fails (the
debug assertion), and resolving a named interface with zero usable
(non-loopback) IPs fails with the no-addresses error; but a literal loopback
IP source is accepted without any loopback check. -/
theorem c4_construction_rejection_amended :
    Inner.new [] = none ∧
    (∀ (bindOk : IpAddr → Bool) (interfaces : List NetInterface)
        (iname : String) (ni : NetInterface) (w : Nat),
      lookupInterface interfaces iname = some ni →
      get_valid_addresses bindOk ni.addr = [] →
      resolveOne bindOk interfaces ⟨iname, w⟩ =
        .error (.noAddressesFound ni.name)) ∧
    (∀ (w : Nat) (bindOk : IpAddr → Bool) (interfaces : List NetInterface),
      lookupInterface interfaces "127.0.0.1" = none →
      resolveOne bindOk interfaces ⟨"127.0.0.1", w⟩ =
        .ok ⟨.ip (.v4 ⟨127, 0, 0, 1⟩), w⟩) := by
  refine ⟨rfl, ?_, ?_⟩
  · intro bindOk interfaces iname ni w hlookup hvalid
    rw [resolveOne]
    simp only [hlookup, hvalid]
    rfl
  · intro w bindOk interfaces hlookup
    rw [resolveOne]
    simp only [hlookup]
    rfl

/-- Witness for C4 (amended): a loopback-only interface is rejected with the
no-addresses error, and a literal loopback source is accepted. -/
theorem c4_construction_rejection_amended_witness :
    resolveOne (fun _ => true) [⟨"wg0", [.v4 ⟨127, 0, 0, 1⟩]⟩]
        ⟨"wg0", 1⟩ = .error (.noAddressesFound "wg0") ∧
      resolveOne (fun _ => true) [] ⟨"127.0.0.1", 2⟩ =
        .ok ⟨.ip (.v4 ⟨127, 0, 0, 1⟩), 2⟩ :=
  ⟨c4_construction_rejection_amended.2.1 (fun _ => true)
      [⟨"wg0", [.v4 ⟨127, 0, 0, 1⟩]⟩] "wg0" ⟨"wg0", [.v4 ⟨127, 0, 0, 1⟩]⟩ 1
      rfl rfl,
    c4_construction_rejection_amended.2.2 2 (fun _ => true) [] rfl⟩

/-! ## Reply counting for the handshake -/

theorem countReplies_append (a b : List WriteEvent) :
    countReplies (a ++ b) = countReplies a + countReplies b := by
  simp [countReplies, List.filter_append]

theorem handleAuth_replies (ms : List Nat) :
    countReplies (handleAuth ms).1 = 0 := by
  by_cases h : (0 : Nat) ∈ ms <;>
    simp [handleAuth, h, countReplies, WriteEvent.isReply]

theorem handleRequestV5_replies (req : Option V5Request)
    (look : Except Unit SocketAddr) :
    countReplies (handleRequestV5 req look).1 ≤ 1 := by
  rcases req with _ | ⟨cmd, host, port⟩
  · simp [handleRequestV5, countReplies]
  · cases cmd
    case connect =>
      cases host with
      | ipv4 ip => simp [handleRequestV5, countReplies]
      | ipv6 ip => simp [handleRequestV5, countReplies]
      | domain valid nm =>
        cases valid
        · simp [handleRequestV5, countReplies]
        · cases look <;>
            simp [handleRequestV5, countReplies, WriteEvent.isReply]
    case bind =>
      simp [handleRequestV5, countReplies, WriteEvent.isReply]
    case udpAssociate =>
      simp [handleRequestV5, countReplies, WriteEvent.isReply]

theorem handleRequestV5_ok_replies (req : Option V5Request)
    (look : Except Unit SocketAddr) (host : SocketAddr)
    (h : (handleRequestV5 req look).2 = .ok host) :
    (handleRequestV5 req look).1 = [] := by
  rcases req with _ | ⟨cmd, host', port⟩
  · simp [handleRequestV5] at h
  · cases cmd
    case connect =>
      cases host' with
      | ipv4 ip => simp [handleRequestV5]
      | ipv6 ip => simp [handleRequestV5]
      | domain valid nm =>
        cases valid
        · simp [handleRequestV5] at h
        · cases look with
          | ok addr => simp [handleRequestV5]
          | error e => simp [handleRequestV5] at h
    case bind => simp [handleRequestV5] at h
    case udpAssociate => simp [handleRequestV5] at h

theorem handleRequestV4_replies (req : Option V4Request)
    (look : Except Unit SocketAddr) :
    countReplies (handleRequestV4 req look).1 ≤ 1 := by
  rcases req with _ | ⟨cmd, host, port⟩
  · simp [handleRequestV4, countReplies]
  · cases cmd
    case connect =>
      cases host with
      | ip ip => simp [handleRequestV4, countReplies]
      | domain valid nm =>
        cases valid
        · simp [handleRequestV4, countReplies]
        · cases look <;>
            simp [handleRequestV4, countReplies, WriteEvent.isReply]
    case bind =>
      simp [handleRequestV4, countReplies, WriteEvent.isReply]

theorem handleRequestV4_ok_replies (req : Option V4Request)
    (look : Except Unit SocketAddr) (host : SocketAddr)
    (h : (handleRequestV4 req look).2 = .ok host) :
    (handleRequestV4 req look).1 = [] := by
  rcases req with _ | ⟨cmd, host', port⟩
  · simp [handleRequestV4] at h
  · cases cmd
    case connect =>
      cases host' with
      | ip ip => simp [handleRequestV4]
      | domain valid nm =>
        cases valid
        · simp [handleRequestV4] at h
        · cases look with
          | ok addr => simp [handleRequestV4]
          | error e => simp [handleRequestV4] at h
    case bind => simp [handleRequestV4] at h

theorem handleConnectV5_replies (la : IpAddr) (bindRes : BindOutcome)
    (conn : Except (Option Int) Unit) :
    countReplies (handleConnectV5 la bindRes conn).1 ≤ 1 := by
  cases bindRes with
  | error e =>
    by_cases h : e = some 49 <;>
      simp [handleConnectV5, tryBindSocket, h, countReplies]
  | ok _ =>
    cases conn <;>
      simp [handleConnectV5, tryBindSocket, countReplies, WriteEvent.isReply]

theorem handleConnectV4_replies (la : IpAddr) (bindRes : BindOutcome)
    (conn : Except (Option Int) Unit) :
    countReplies (handleConnectV4 la bindRes conn).1 ≤ 1 := by
  cases bindRes with
  | error e =>
    by_cases h : e = some 49 <;>
      simp [handleConnectV4, tryBindSocket, h, countReplies]
  | ok _ =>
    cases conn <;>
      simp [handleConnectV4, tryBindSocket, countReplies, WriteEvent.isReply]

/-- C5: every completed handshake — success or any failure path — writes at
most one SOCKS reply (request-status message) to the client. -/
theorem c5_at_most_one_reply :
    ∀ env : HsEnv, countReplies (handshake env).1 ≤ 1 := by
  intro env
  rcases env with ⟨version, probe, greeting, v5req, v4req, look, disp, bindr, conn⟩
  cases version
  case ioError => simp [handshake, countReplies]
  case invalid b => simp [handshake, countReplies]
  case v5 =>
    cases greeting with
    | none => simp [handshake, countReplies]
    | some methods =>
      by_cases hauth : (0 : Nat) ∈ methods
      · rcases hreq : handleRequestV5 v5req look with ⟨w2, r2⟩
        cases r2 with
        | error e =>
          have hb := handleRequestV5_replies v5req look
          rw [hreq] at hb
          simp only [countReplies, WriteEvent.isReply] at hb
          simp [handshake, handleAuth, hauth, hreq, countReplies,
            WriteEvent.isReply]
          omega
        | ok host =>
          have hw2 : w2 = [] := by
            have h2 := handleRequestV5_ok_replies v5req look host
              (by rw [hreq])
            rw [hreq] at h2
            exact h2
          subst hw2
          cases disp with
          | error e =>
            simp [handshake, handleAuth, hauth, hreq, countReplies,
              WriteEvent.isReply]
          | ok la =>
            rcases hconn : handleConnectV5 la bindr conn with ⟨w3, r3⟩
            have hb := handleConnectV5_replies la bindr conn
            rw [hconn] at hb
            simp only [countReplies, WriteEvent.isReply] at hb
            simp [handshake, handleAuth, hauth, hreq, hconn, countReplies,
              WriteEvent.isReply]
            omega
      · simp [handshake, handleAuth, hauth, countReplies]
  case v4 =>
    rcases hreq : handleRequestV4 v4req look with ⟨w2, r2⟩
    cases r2 with
    | error e =>
      simp only [handshake, hreq]
      have := handleRequestV4_replies v4req look
      rw [hreq] at this
      exact this
    | ok host =>
      have hw2 : w2 = [] := by
        have := handleRequestV4_ok_replies v4req look host (by rw [hreq])
        rw [hreq] at this
        exact this
      subst hw2
      cases disp with
      | error e =>
        simp [handshake, hreq, countReplies]
      | ok la =>
        rcases hconn : handleConnectV4 la bindr conn with ⟨w3, r3⟩
        simp only [handshake, hreq, hconn, countReplies_append]
        have := handleConnectV4_replies la bindr conn
        rw [hconn] at this
        simp [countReplies] at this ⊢
        omega

/-- C6: in the SOCKSv5 flow (greeting accepted, CONNECT request to an IPv4
destination, dispatch and bind succeeded), a connect failure writes exactly
one reply with the status mapped from the OS error code — 101/ENETUNREACH →
NetworkUnreachable, 110/ETIMEDOUT → TtlExpired, 111/ECONNREFUSED →
ConnectionRefused, 113/EHOSTUNREACH → HostUnreachable, anything else →
ServerFailure — before failing with the remote-connect error; a connect
success writes Success with BND.ADDR 0.0.0.0 and BND.PORT 0. -/
theorem c6_connect_error_status_mapping :
    (∀ (env : HsEnv) (ms : List Nat) (dst : Ipv4) (p : Nat) (la : IpAddr)
        (code : Option Int),
      env.version = .v5 → env.greeting = some ms → (0 : Nat) ∈ ms →
      env.v5request = some ⟨.connect, .ipv4 dst, p⟩ →
      env.dispatchResult = .ok la → env.bindResult = .ok () →
      env.connectResult = .error code →
      (handshake env).1 =
          [.authMethod 0,
            .v5Status (connectStatusOf code) (.ipv4 ⟨0, 0, 0, 0⟩) 0] ∧
        (handshake env).2 = .error (.remoteConnectFailed code))
    ∧ (∀ (env : HsEnv) (ms : List Nat) (dst : Ipv4) (p : Nat) (la : IpAddr),
      env.version = .v5 → env.greeting = some ms → (0 : Nat) ∈ ms →
      env.v5request = some ⟨.connect, .ipv4 dst, p⟩ →
      env.dispatchResult = .ok la → env.bindResult = .ok () →
      env.connectResult = .ok () →
      (handshake env).1 =
          [.authMethod 0, .v5Status .success (.ipv4 ⟨0, 0, 0, 0⟩) 0] ∧
        (handshake env).2 = .ok ())
    ∧ connectStatusOf (some 101) = .networkUnreachable
    ∧ connectStatusOf (some 110) = .ttlExpired
    ∧ connectStatusOf (some 111) = .connectionRefused
    ∧ connectStatusOf (some 113) = .hostUnreachable
    ∧ (∀ code : Option Int,
      code ∉ ([some 101, some 110, some 111, some 113] :
        List (Option Int)) → connectStatusOf code = .serverFailure) := by
  refine ⟨?_, ?_, rfl, rfl, rfl, rfl, ?_⟩
  · intro env ms dst p la code hv hg hm hreq hdisp hbind hconn
    rcases env with ⟨version, probe, greeting, v5req, v4req, look, disp,
      bindr, conn⟩
    simp only at hv hg hreq hdisp hbind hconn
    subst hv hg hreq hdisp hbind hconn
    constructor <;>
      simp [handshake, handleAuth, hm, handleRequestV5, handleConnectV5,
        tryBindSocket]
  · intro env ms dst p la hv hg hm hreq hdisp hbind hconn
    rcases env with ⟨version, probe, greeting, v5req, v4req, look, disp,
      bindr, conn⟩
    simp only at hv hg hreq hdisp hbind hconn
    subst hv hg hreq hdisp hbind hconn
    constructor <;>
      simp [handshake, handleAuth, hm, handleRequestV5, handleConnectV5,
        tryBindSocket]
  · intro code hcode
    simp only [List.mem_cons, List.mem_singleton, not_or] at hcode
    simp [connectStatusOf, hcode.1, hcode.2.1, hcode.2.2.1, hcode.2.2.2.1]

/-- Witness for C6: the error part at a concrete environment failing with
ECONNREFUSED (111), and the success part at the same environment with a
successful connect. -/
theorem c6_connect_error_status_mapping_witness :
    ((handshake ⟨.v5, .ok [], some [0],
          some ⟨.connect, .ipv4 ⟨1, 1, 1, 1⟩, 80⟩, none, .error (),
          .ok (.v4 ⟨10, 0, 0, 1⟩), .ok (), .error (some 111)⟩).1 =
        [.authMethod 0,
          .v5Status (connectStatusOf (some 111)) (.ipv4 ⟨0, 0, 0, 0⟩) 0] ∧
      (handshake ⟨.v5, .ok [], some [0],
          some ⟨.connect, .ipv4 ⟨1, 1, 1, 1⟩, 80⟩, none, .error (),
          .ok (.v4 ⟨10, 0, 0, 1⟩), .ok (), .error (some 111)⟩).2 =
        .error (.remoteConnectFailed (some 111))) ∧
    ((handshake ⟨.v5, .ok [], some [0],
          some ⟨.connect, .ipv4 ⟨1, 1, 1, 1⟩, 80⟩, none, .error (),
          .ok (.v4 ⟨10, 0, 0, 1⟩), .ok (), .ok ()⟩).1 =
        [.authMethod 0, .v5Status .success (.ipv4 ⟨0, 0, 0, 0⟩) 0] ∧
      (handshake ⟨.v5, .ok [], some [0],
          some ⟨.connect, .ipv4 ⟨1, 1, 1, 1⟩, 80⟩, none, .error (),
          .ok (.v4 ⟨10, 0, 0, 1⟩), .ok (), .ok ()⟩).2 = .ok ()) :=
  ⟨c6_connect_error_status_mapping.1 _ [0] ⟨1, 1, 1, 1⟩ 80
      (.v4 ⟨10, 0, 0, 1⟩) (some 111) rfl rfl (by decide) rfl rfl rfl rfl,
    c6_connect_error_status_mapping.2.1 _ [0] ⟨1, 1, 1, 1⟩ 80
      (.v4 ⟨10, 0, 0, 1⟩) rfl rfl (by decide) rfl rfl rfl rfl⟩

/-- C7: when the first byte is neither 0x04 nor 0x05, a byte in
{C,G,P,H,D,O,T} triggers the HTTP probe: if the buffered content (that byte
plus up to 1023 further read bytes) starts with an HTTP method token the
result is the HTTP-client diagnostic carrying exactly the first request
line, otherwise InvalidSocksVersion with that byte; a first byte outside
the set (such as 'Z' = 0x5A) yields InvalidSocksVersion immediately.
Concretely, 'G' followed by `"ET / HTTP/1.1\r\n"` yields the diagnostic with
first line exactly `"GET / HTTP/1.1"`. -/
theorem c7_http_detection :
    (∀ (b : Nat) (chunk : List Nat),
      isHttpMethodStartByte b = true →
      HTTP_METHODS.any (fun m => m.isPrefixOf (b :: chunk.take 1023)) =
        true →
      handleVersionError b (.ok chunk) =
        .httpClientOnSocksListener (firstLine (b :: chunk.take 1023)))
    ∧ (∀ (b : Nat) (chunk : List Nat),
      isHttpMethodStartByte b = true →
      HTTP_METHODS.any (fun m => m.isPrefixOf (b :: chunk.take 1023)) =
        false →
      handleVersionError b (.ok chunk) = .invalidSocksVersion b)
    ∧ (∀ (b : Nat) (readOut : Except Unit (List Nat)),
      isHttpMethodStartByte b = false →
      handleVersionError b readOut = .invalidSocksVersion b)
    ∧ handleVersionError 71 (.ok (strBytes "ET / HTTP/1.1\r\n")) =
        .httpClientOnSocksListener (strBytes "GET / HTTP/1.1")
    ∧ handleVersionError 90 (.ok (strBytes "whatever")) =
        .invalidSocksVersion 90 := by
  refine ⟨?_, ?_, ?_, ?_, ?_⟩
  · intro b chunk hb hpre
    simp [handleVersionError, hb, hpre]
  · intro b chunk hb hpre
    simp [handleVersionError, hb, hpre]
  · intro b readOut hb
    simp [handleVersionError, hb]
  · rfl
  · rfl

/-- Witness for C7: the HTTP branch applied at the concrete 'G' input, and
the invalid-version branch at the concrete 'Z' input. -/
theorem c7_http_detection_witness :
    handleVersionError 71 (.ok (strBytes "ET / HTTP/1.1\r\n")) =
        .httpClientOnSocksListener
          (firstLine (71 :: (strBytes "ET / HTTP/1.1\r\n").take 1023)) ∧
      handleVersionError 90 (.ok (strBytes "whatever")) =
        .invalidSocksVersion 90 :=
  ⟨c7_http_detection.1 71 (strBytes "ET / HTTP/1.1\r\n") (by decide)
      (by decide),
    c7_http_detection.2.2.1 90 (.ok (strBytes "whatever")) (by decide)⟩

/-- C8 evaluated on the code: `try_bind_socket` wraps a bind failure in the
local-address-inaccessible error only for raw OS error 49 (EADDRNOTAVAIL on
macOS/BSD, whose strerror the code comment quotes); on 99 — EADDRNOTAVAIL on
Linux, the platform whose errno values the connect mapping in the same file
uses — the error is surfaced unwrapped. -/
theorem c8_bind_error_mapping_evaluation :
    tryBindSocket (.v4 ⟨10, 0, 0, 1⟩) (.error (some 99)) =
        .error (.bindIoError (some 99)) ∧
      tryBindSocket (.v4 ⟨10, 0, 0, 1⟩) (.error (some 49)) =
        .error (.localAddressInaccessible (.v4 ⟨10, 0, 0, 1⟩) (some 49)) ∧
      tryBindSocket (.v4 ⟨10, 0, 0, 1⟩) (.error none) =
        .error (.bindIoError none) :=
  ⟨rfl, rfl, rfl⟩

end Dispatch
